import Mathlib

/-!
Verification of the go-server repository (variants server, server3, server4).

The development shallowly embeds the path-resolution, metadata-cache,
directory-rendering and JSON-echo logic of `src/server3/go-server3.go` and
`src/server4/go-server4.go`.  Filesystem state is an explicit oracle, wall
clock time is an explicit `Int` parameter, and the standard-library helpers
the handlers call (`path/filepath.Clean`, `Join`, `Rel`, `Dir`,
`strings.HasPrefix`, `html.EscapeString`, ...) are modelled faithfully from
their Go (Unix) semantics at the level of path segments and characters.
-/

/-! ### Paths: segments and rendering -/

/-- Split a character list on `'/'`, keeping empty segments, as Go's
element-wise scanning of a path does.  `[]` yields `[""]`, matching the fact
that an empty string holds a single empty element. -/
def splitOnSlash : List Char → List String
  | [] => [""]
  | c :: rest =>
    if c = '/' then "" :: splitOnSlash rest
    else
      match splitOnSlash rest with
      | [] => [String.mk [c]]
      | s :: ss => String.mk (c :: s.data) :: ss

/-- Join segments with the Unix path separator. -/
def joinSegs : List String → String
  | [] => ""
  | [s] => s
  | s :: t :: rest => s ++ "/" ++ joinSegs (t :: rest)

/-- A path is rooted (absolute on Unix) when it starts with the separator. -/
def isRooted (s : String) : Bool :=
  match s.data with
  | c :: _ => c = '/'
  | [] => false

/-- A clean path element: non-empty, not a dot element, and free of the
separator character. -/
def isGoodSeg (s : String) : Bool :=
  s ≠ "" && s ≠ "." && s ≠ ".." && !s.data.contains '/'

/-- The element-processing loop of Go `path/filepath.Clean` (Unix): empty and
`.` elements are dropped; a `..` element pops the last real element when one
is available, is dropped at the root of a rooted path, and is kept for a
relative path that cannot backtrack further. -/
def cleanLoop (rooted : Bool) : List String → List String → List String
  | out, [] => out
  | out, seg :: rest =>
    if seg = "" ∨ seg = "." then cleanLoop rooted out rest
    else if seg = ".." then
      if (if rooted then out ≠ [] else out ≠ [] ∧ out.getLast? ≠ some "..") then
        cleanLoop rooted out.dropLast rest
      else if rooted then cleanLoop rooted out rest
      else cleanLoop rooted (out ++ [".."]) rest
    else cleanLoop rooted (out ++ [seg]) rest

/-- Model of Go `path/filepath.Clean` on Unix: shortest lexical equivalent of
the path; the empty path yields `"."`. -/
def filepathClean (p : String) : String :=
  if p = "" then "."
  else
    let rooted := isRooted p
    let segs := cleanLoop rooted [] (splitOnSlash p.data)
    if rooted then "/" ++ joinSegs segs
    else if segs = [] then "." else joinSegs segs

/-- Model of Go `path/filepath.Join` for two elements: empty elements are
skipped and the slash-joined remainder is cleaned. -/
def filepathJoin (a b : String) : String :=
  if a = "" then (if b = "" then "" else filepathClean b)
  else filepathClean (a ++ "/" ++ b)

/-- Model of Go `strings.HasPrefix s patt`. -/
def goStrStarts (s patt : String) : Bool := patt.data.isPrefixOf s.data

/-- Model of Go `strings.HasSuffix s patt`. -/
def goStrEnds (s patt : String) : Bool := patt.data.isSuffixOf s.data

/-- Characters of a path up to and including its last separator (empty when
the path has no separator), as Go `filepath.Dir` computes before cleaning. -/
def dropLastSeg (cs : List Char) : List Char :=
  (cs.reverse.dropWhile (fun c => c ≠ '/')).reverse

/-- Model of Go `path/filepath.Dir` on Unix. -/
def filepathDir (p : String) : String :=
  filepathClean (String.mk (dropLastSeg p.data))

/-! ### filepath.Rel -/

/-- The path elements Go `filepath.Rel` walks over for an already-cleaned
path: the empty string has none, the root has a single empty element, and
any other cleaned path splits on the separator. -/
def relElems (s : String) : List String :=
  if s = "" then [] else if s = "/" then [""] else splitOnSlash s.data

/-- Drop the longest common element-wise run of the two paths, as the
scanning loop of Go `filepath.Rel` does. -/
def dropCommon : List String → List String → List String × List String
  | b :: bs, t :: ts => if b = t then dropCommon bs ts else (b :: bs, t :: ts)
  | bs, ts => (bs, ts)

/-- After the common run: Go `filepath.Rel` fails when the first remaining
base element is a parent element, otherwise climbs with one `..` per
remaining base element and descends into the remaining target elements. -/
def relAfterCommon : List String × List String → Option String
  | ([], ts) => some (joinSegs ts)
  | (b :: bs, ts) =>
    if b = ".." then none
    else some (joinSegs (List.replicate (bs.length + 1) ".." ++ ts))

/-- Model of Go `path/filepath.Rel` on Unix (no volume names): clean both
paths, answer `"."` when they agree, refuse to relate an absolute and a
relative path, and otherwise resolve element-wise. -/
def filepathRel (basep targp : String) : Option String :=
  let base := filepathClean basep
  let targ := filepathClean targp
  if targ = base then some "."
  else
    let base' := if base = "." then "" else base
    if isRooted base' ≠ isRooted targ then none
    else relAfterCommon (dropCommon (relElems base') (relElems targ))

/-! ### Segment-wise containment in the root -/

/-- The clean segments of an absolute path. -/
def segsOfAbs (p : String) : List String :=
  cleanLoop true [] (splitOnSlash p.data)

/-- Segment-wise containment: `p` lies within `root` when both are absolute
and the clean segments of `root` lead those of `p` (equality included), so a
sibling such as `/base-evil` is not within `/base`. -/
def withinRoot (root p : String) : Bool :=
  isRooted root && isRooted p && (segsOfAbs root).isPrefixOf (segsOfAbs p)

/-- An absolute path already in clean form (as `filepath.Abs` returns). -/
def isCleanAbs (s : String) : Prop :=
  isRooted s = true ∧ filepathClean s = s

/-! ### HTML escaping (html.EscapeString, html/template.HTMLEscapeString) -/

/-- Replacement of one character by Go `html.EscapeString`. -/
def escChar (c : Char) : String :=
  if c = '&' then "&amp;"
  else if c = '\'' then "&#39;"
  else if c = '<' then "&lt;"
  else if c = '>' then "&gt;"
  else if c = '"' then "&#34;"
  else String.mk [c]

/-- Model of Go `html.EscapeString` (used by server3). -/
def htmlEscapeString (s : String) : String :=
  String.join (s.data.map escChar)

/-- Replacement of one character by Go `html/template.HTMLEscapeString`,
which additionally replaces the NUL character by U+FFFD. -/
def escChar4 (c : Char) : String :=
  if c = Char.ofNat 0 then "�" else escChar c

/-- Model of Go `html/template.HTMLEscapeString` (used by server4). -/
def templateHTMLEscapeString (s : String) : String :=
  String.join (s.data.map escChar4)

/-- Count occurrences of a character in a string. -/
def countChar (c : Char) (s : String) : Nat := s.data.count c

/-- Decimal digit character (callers pass a value below ten). -/
def decDigit (d : Nat) : Char :=
  match d with
  | 0 => '0' | 1 => '1' | 2 => '2' | 3 => '3' | 4 => '4'
  | 5 => '5' | 6 => '6' | 7 => '7' | 8 => '8' | _ => '9'

/-- Digit list of a natural number, fuelled to stay structural. -/
def natDecAux : Nat → Nat → List Char
  | 0, _ => []
  | fuel + 1, n =>
    if n < 10 then [decDigit n]
    else natDecAux fuel (n / 10) ++ [decDigit (n % 10)]

/-- Decimal rendering of a natural number, as Go `fmt.Fprintf` renders a
non-negative `%d` argument. -/
def natDec (n : Nat) : String := String.mk (natDecAux (n + 1) n)

/-! ### Filesystem oracle, directory entries, caches -/

/-- Result of a successful `os.Stat`: the pieces of `os.FileInfo` the
handlers consult.  Modification time is modelled as an integer instant. -/
structure FileInfo where
  modTime : Int
  isDir : Bool
  size : Nat
deriving DecidableEq

/-- One result of `os.ReadDir`: the name, kind, size and the already
formatted modification-time text the renderers embed
(`ModTime().Format(...)` output). -/
structure DirEntry where
  name : String
  isDir : Bool
  size : Nat
  modTimeText : String
deriving DecidableEq

/-- The filesystem as the handlers observe it during one request: `stat`
models `os.Stat` (`none` is a stat error) and `readDir` models `os.ReadDir`
(`none` is a read error). -/
structure FSModel where
  stat : String → Option FileInfo
  readDir : String → Option (List DirEntry)

/-- server3 `cacheEntry`: modification time, directory flag, last access. -/
structure CacheEntry3 where
  modTime : Int
  isDir : Bool
  lastAccess : Int
deriving DecidableEq

/-- server3 `fileCache`, keyed by absolute filesystem path. -/
abbrev Cache3 := String → Option CacheEntry3

/-- Map update, modelling `fileCache[path] = entry`. -/
def cache3Insert (c : Cache3) (k : String) (v : CacheEntry3) : Cache3 :=
  fun k' => if k' = k then some v else c k'

/-- server3 `cleanCache`: drop every entry whose last access is older than
the TTL at sweep time `now`. -/
def cleanCache3 (now ttl : Int) (c : Cache3) : Cache3 :=
  fun k =>
    match c k with
    | some e => if now - e.lastAccess > ttl then none else some e
    | none => none

/-- A run of periodic sweep ticks at the given instants. -/
def runSweeps3 (ttl : Int) (ts : List Int) (c : Cache3) : Cache3 :=
  ts.foldl (fun acc t => cleanCache3 t ttl acc) c

/-- server4 `cacheEntry`: the whole `os.FileInfo`, its modification time and
the last access instant. -/
structure CacheEntry4 where
  info : FileInfo
  modTime : Int
  lastAccess : Int
deriving DecidableEq

/-- server4 `cache`, keyed by filesystem path. -/
abbrev Cache4 := String → Option CacheEntry4

/-- Map update, modelling `cache[path] = entry`. -/
def cache4Insert (c : Cache4) (k : String) (v : CacheEntry4) : Cache4 :=
  fun k' => if k' = k then some v else c k'

/-- Map deletion, modelling `delete(cache, path)`. -/
def cache4Erase (c : Cache4) (k : String) : Cache4 :=
  fun k' => if k' = k then none else c k'

/-- The body of server4 `getFromCache`, applied to the map lookup: a fresh
entry (age strictly below TTL) is returned with its last access refreshed;
an expired entry is deleted. -/
def getFromCacheEntry (c : Cache4) (now ttl : Int) (path : String) :
    Option CacheEntry4 → Option FileInfo × Cache4
  | some e =>
    if now - e.lastAccess < ttl then
      (some e.info, cache4Insert c path { e with lastAccess := now })
    else (none, cache4Erase c path)
  | none => (none, c)

/-- server4 `getFromCache`. -/
def getFromCache (c : Cache4) (now ttl : Int) (path : String) :
    Option FileInfo × Cache4 :=
  getFromCacheEntry c now ttl path (c path)

/-- server4 `putInCache`. -/
def putInCache (c : Cache4) (now : Int) (path : String) (info : FileInfo) :
    Cache4 :=
  cache4Insert c path ⟨info, info.modTime, now⟩

/-- server4 `cleanCache` body for one ticker tick at instant `now`. -/
def cleanCache4 (now ttl : Int) (c : Cache4) : Cache4 :=
  fun k =>
    match c k with
    | some e => if now - e.lastAccess > ttl then none else some e
    | none => none

/-- A run of server4 sweep ticks at the given instants. -/
def runSweeps4 (ttl : Int) (ts : List Int) (c : Cache4) : Cache4 :=
  ts.foldl (fun acc t => cleanCache4 t ttl acc) c

/-! ### Directory listing renderers -/

/-- Lexicographic comparison of character lists, the order Go's `<` on
strings induces (byte order, which UTF-8 makes agree with code-point
order). -/
def charListLt : List Char → List Char → Bool
  | [], [] => false
  | [], _ :: _ => true
  | _ :: _, [] => false
  | a :: as, b :: bs =>
    if a < b then true
    else if b < a then false
    else charListLt as bs

/-- Go's `<` on strings. -/
def goStrLess (a b : String) : Bool := charListLt a.data b.data

/-- server3 comparator passed to `sort.Slice`: plain lexicographic order on
names. -/
def s3Less (a b : DirEntry) : Bool := goStrLess a.name b.name

/-- The sorted order `sort.Slice` leaves server3's entries in: sorted by the
non-strict counterpart of `s3Less`; with the comparator a strict weak order
and directory entry names distinct, this order is unique. -/
def s3Sort (l : List DirEntry) : List DirEntry :=
  l.mergeSort (fun a b => !(s3Less b a))

/-- server4 comparator passed to `sort.Slice`: directories first, then
lexicographic by name. -/
def s4Less (a b : DirEntry) : Bool :=
  if a.isDir ≠ b.isDir then a.isDir else goStrLess a.name b.name

/-- The sorted order `sort.Slice` leaves server4's entries in. -/
def s4Sort (l : List DirEntry) : List DirEntry :=
  l.mergeSort (fun a b => !(s4Less b a))

/-- The fixed opening of server3's listing document, with the request path
HTML-escaped into the title and heading (the `%s` substitutions). -/
def s3HeaderHTML (reqPath : String) : String :=
  "\n\t\t\t<html>\n\t\t\t<head>\n\t\t\t\t<title>Index of "
    ++ htmlEscapeString reqPath
    ++ "</title>\n\t\t\t\t<style>\n\t\t\t\t\tbody \x7b font-family: Arial, sans-serif; margin: 20px; \x7d\n\t\t\t\t\th2 \x7b color: #333; \x7d\n\t\t\t\t\tul \x7b list-style: none; padding: 0; \x7d\n\t\t\t\t\tli \x7b padding: 5px 0; \x7d\n\t\t\t\t\ta \x7b text-decoration: none; color: #0066cc; \x7d\n\t\t\t\t\ta:hover \x7b text-decoration: underline; \x7d\n\t\t\t\t</style>\n\t\t\t</head>\n\t\t\t<body>\n\t\t\t\t<h2>Index of "
    ++ htmlEscapeString reqPath
    ++ "</h2>\n\t\t\t\t<ul>"

/-- server3's parent link line: `filepath.Dir` of the request path, given a
trailing slash when it lacks one, escaped into the anchor. -/
def s3ParentHTML (reqPath : String) : String :=
  let patt := filepathDir reqPath
  let patt := if !goStrEnds patt "/" then patt ++ "/" else patt
  "<li><a href=\"" ++ htmlEscapeString patt ++ "\">..</a></li>"

/-- One server3 listing line: escaped link and name (directories get a
trailing slash on both), size in bytes and the formatted time. -/
def s3EntryHTML (reqPath : String) (f : DirEntry) : String :=
  let name := f.name
  let link := filepathJoin reqPath name
  let link := if f.isDir then link ++ "/" else link
  let name := if f.isDir then name ++ "/" else name
  "<li><a href=\"" ++ htmlEscapeString link ++ "\">" ++ htmlEscapeString name
    ++ "</a> (" ++ natDec f.size ++ " bytes, " ++ f.modTimeText ++ ")</li>"

/-- The listing lines server3 emits for the given (already sorted) entries:
names beginning with a dot are skipped. -/
def s3Lines (reqPath : String) (files : List DirEntry) : List String :=
  files.filterMap fun f =>
    if goStrStarts f.name "." then none else some (s3EntryHTML reqPath f)

/-- server3's full listing document for a directory. -/
def s3ListingHTML (reqPath : String) (files : List DirEntry) : String :=
  s3HeaderHTML reqPath
    ++ (if reqPath ≠ "/" then s3ParentHTML reqPath else "")
    ++ String.join (s3Lines reqPath (s3Sort files))
    ++ "</ul></body></html>"

/-- The fixed opening of server4's listing document. -/
def s4HeaderHTML (relPath : String) : String :=
  "<html><head><title>Index of " ++ templateHTMLEscapeString relPath
    ++ "</title></head><body>" ++ "<h1>Index of "
    ++ templateHTMLEscapeString relPath ++ "</h1><ul>"

/-- server4's parent link line: `filepath.Dir`, with `"."` replaced by the
root path. -/
def s4ParentHTML (relPath : String) : String :=
  let patt := filepathDir relPath
  let patt := if patt = "." then "/" else patt
  "<li><a href=\"" ++ templateHTMLEscapeString patt ++ "\">..</a></li>"

/-- One server4 listing line: escaped link (directories get a trailing
slash) and name, size and RFC 3339 time text. -/
def s4EntryHTML (relPath : String) (f : DirEntry) : String :=
  let patt := filepathJoin relPath f.name
  let patt := if f.isDir then patt ++ "/" else patt
  "<li><a href=\"" ++ templateHTMLEscapeString patt ++ "\">"
    ++ templateHTMLEscapeString f.name ++ "</a> " ++ natDec f.size
    ++ " bytes " ++ f.modTimeText ++ "</li>"

/-- The listing lines server4 emits for already sorted entries, skipping
dotted names. -/
def s4Lines (relPath : String) (files : List DirEntry) : List String :=
  files.filterMap fun f =>
    if goStrStarts f.name "." then none else some (s4EntryHTML relPath f)

/-- server4's full listing document for a directory. -/
def s4ListingHTML (relPath : String) (files : List DirEntry) : String :=
  s4HeaderHTML relPath
    ++ (if relPath ≠ "/" then s4ParentHTML relPath else "")
    ++ String.join (s4Lines relPath (s4Sort files))
    ++ "</ul></body></html>"

/-! ### server3 request handler -/

/-- The response alternatives of server3's `handleBrowse` (headers and
streaming are carried by the constructor's data). -/
inductive S3Response where
  | notFound
  | servedFile (path : String) (info : FileInfo)
  | listing (body : String)
  | internalError
deriving DecidableEq

/-- Outcome of one server3 request: the response, the cache left behind, and
the list of filesystem paths the handler touched (each `os.Stat`,
`os.ReadDir` and `http.ServeFile` argument). -/
structure S3Out where
  resp : S3Response
  cache : Cache3
  touched : List String

/-- server3's path resolution: clean the URL path, join it onto the base
directory, and reject (404, no filesystem access) when the result does not
bear the base directory as a string prefix. -/
def s3Resolve (base urlPath : String) : Option (String × String) :=
  let reqPath := filepathClean urlPath
  let fsPath := filepathJoin base reqPath
  if goStrStarts fsPath base then some (reqPath, fsPath) else none

/-- The tail of server3's `handleBrowse` after the cache inspection: stat
the path (404 on failure), overwrite the cache entry from the fresh stat,
then serve the file or enumerate and render the directory. -/
def s3Rest (fs : FSModel) (c : Cache3) (now : Int) (reqPath fsPath : String)
    (t : List String) : S3Out :=
  match fs.stat fsPath with
  | none => ⟨.notFound, c, t ++ [fsPath]⟩
  | some info =>
    let c' := cache3Insert c fsPath ⟨info.modTime, info.isDir, now⟩
    if !info.isDir then ⟨.servedFile fsPath info, c', t ++ [fsPath]⟩
    else
      match fs.readDir fsPath with
      | none => ⟨.internalError, c', t ++ [fsPath]⟩
      | some files =>
        ⟨.listing (s3ListingHTML reqPath files), c', t ++ [fsPath]⟩

/-- The cache-hit arm of server3 `handleBrowse`, applied to the result of
the first `os.Stat`: when the stat succeeds and the fresh modification time
equals the cached one, the handler refreshes the entry and serves the file
immediately (with the fresh stat result) if the cached entry says it is a
file; in every other case it falls through to the stat-again tail. -/
def s3HitStat (fs : FSModel) (c : Cache3) (now : Int) (rq fsP : String)
    (cached : CacheEntry3) : Option FileInfo → S3Out
  | some info =>
    if info.modTime = cached.modTime then
      let c' := cache3Insert c fsP ⟨info.modTime, info.isDir, now⟩
      if !cached.isDir then ⟨.servedFile fsP info, c', [fsP]⟩
      else s3Rest fs c' now rq fsP [fsP]
    else s3Rest fs c now rq fsP [fsP]
  | none => s3Rest fs c now rq fsP [fsP]

/-- server3 `handleBrowse` after resolution, applied to the cache lookup
result. -/
def s3CacheStep (fs : FSModel) (c : Cache3) (now : Int) (rq fsP : String) :
    Option CacheEntry3 → S3Out
  | some cached => s3HitStat fs c now rq fsP cached (fs.stat fsP)
  | none => s3Rest fs c now rq fsP []

/-- server3 `handleBrowse` applied to the resolution result: rejection is a
404 with no filesystem access. -/
def s3Dispatch (fs : FSModel) (c : Cache3) (now : Int) :
    Option (String × String) → S3Out
  | none => ⟨.notFound, c, []⟩
  | some (rq, fsP) => s3CacheStep fs c now rq fsP (c fsP)

/-- server3 `handleBrowse`: resolve the path, consult the cache, stat, and
serve — the composition of the pieces above, in the order of the source. -/
def handleBrowse3 (base : String) (fs : FSModel) (c : Cache3) (now : Int)
    (urlPath : String) : S3Out :=
  s3Dispatch fs c now (s3Resolve base urlPath)

/-! ### server4 request handler -/

/-- The response alternatives of server4's `fileHandler`; `served` carries
no metadata because `http.ServeFile` only receives the path. -/
inductive S4Response where
  | notFound
  | served (path : String)
  | listing (body : String)
  | forbidden
deriving DecidableEq

/-- Outcome of one server4 request: response, resulting cache, and the
arguments of the `os.Stat` calls the handler itself performed. -/
structure S4Out where
  resp : S4Response
  cache : Cache4
  statted : List String

/-- server4's path resolution: clean the URL path, join onto the base
directory, and reject when `filepath.Rel` fails or its result has the string
prefix `".."`. -/
def s4Resolve (base urlPath : String) : Option String :=
  let relPath := filepathClean urlPath
  let fsPath := filepathJoin base relPath
  match filepathRel base fsPath with
  | none => none
  | some rel => if goStrStarts rel ".." then none else some fsPath

/-- server4 `dirList`: enumerate the directory (403 on failure) and render
the sorted, escaped listing. -/
def dirList4 (fs : FSModel) (relPath fsPath : String) : S4Response :=
  match fs.readDir fsPath with
  | none => .forbidden
  | some files => .listing (s4ListingHTML relPath files)

/-- The cache-miss arm of server4 `fileHandler`, applied to the result of
`os.Stat`: 404 on failure, otherwise fill the cache and branch on the fresh
directory flag. -/
def s4StatStep (fs : FSModel) (relPath fsP : String) (now : Int)
    (c1 : Cache4) : Option FileInfo → S4Out
  | none => ⟨.notFound, c1, [fsP]⟩
  | some info =>
    let c2 := putInCache c1 now fsP info
    if info.isDir then ⟨dirList4 fs relPath fsP, c2, [fsP]⟩
    else ⟨.served fsP, c2, [fsP]⟩

/-- server4 `fileHandler` after resolution, applied to the `getFromCache`
result: a fresh cache hit is used without any stat; a miss falls through to
the stat arm. -/
def s4CacheStep (fs : FSModel) (relPath fsP : String) (now : Int) :
    Option FileInfo × Cache4 → S4Out
  | (some info, c1) =>
    if info.isDir then ⟨dirList4 fs relPath fsP, c1, []⟩
    else ⟨.served fsP, c1, []⟩
  | (none, c1) => s4StatStep fs relPath fsP now c1 (fs.stat fsP)

/-- server4 `fileHandler` applied to the resolution result. -/
def s4Dispatch (fs : FSModel) (c : Cache4) (now ttl : Int)
    (relPath : String) : Option String → S4Out
  | none => ⟨.notFound, c, []⟩
  | some fsP => s4CacheStep fs relPath fsP now (getFromCache c now ttl fsP)

/-- server4 `fileHandler`: resolve the path; on a fresh cache hit use the
cached metadata without any stat, otherwise stat (404 on failure) and fill
the cache; then branch on the directory flag of whichever metadata was
used. -/
def fileHandler4 (base : String) (fs : FSModel) (c : Cache4) (now ttl : Int)
    (urlPath : String) : S4Out :=
  s4Dispatch fs c now ttl (filepathClean urlPath) (s4Resolve base urlPath)

/-! ### JSON echo endpoints -/

/-- JSON values (numbers as integers suffice for these handlers, which never
inspect numeric payloads). -/
inductive Json where
  | null
  | jbool (b : Bool)
  | jnum (n : Int)
  | jstr (s : String)
  | jarr (elems : List Json)
  | jobj (fields : List (String × Json))

/-- Model of Go `strings.EqualFold` restricted to simple case folding, the
case-insensitive key match `encoding/json` falls back to. -/
def goEqualFold (a b : String) : Bool :=
  a.data.map Char.toLower == b.data.map Char.toLower

/-- Unmarshalling one JSON object member into the `Data string` field of
server3's request struct: a string value is assigned, a null leaves the
field untouched, any other type is a decode error (`none`). -/
def setDataField (cur : String) (v : Json) : Option String :=
  match v with
  | .jstr s => some s
  | .null => some cur
  | _ => none

/-- Model of decoding server3's request body into `struct { Data string }`
per `encoding/json`: a JSON null leaves the zero value, an object assigns
every member whose key matches the field case-insensitively (later
duplicates override), and any other top-level value is an error. -/
def decodeS3Body : Json → Option String
  | .null => some ""
  | .jobj kvs =>
    kvs.foldlM
      (fun cur kv =>
        if goEqualFold kv.1 "data" then setDataField cur kv.2 else some cur)
      ""
  | _ => none

/-- The request body as the decoder sees it after `http.MaxBytesReader`:
bodies over the 1 MiB cap and syntactically invalid bodies both surface as
decode errors. -/
inductive BodyRead where
  | tooLarge
  | malformed
  | payload (j : Json)

/-- Build a `BodyRead` from the byte length and parse of the raw body; the
cap is the `1024*1024` (server3) and `1048576` (server4) limit. -/
def readBody (byteLen : Nat) (parsed : Option Json) : BodyRead :=
  if byteLen > 1048576 then .tooLarge
  else
    match parsed with
    | none => .malformed
    | some j => .payload j

/-- Responses of the JSON echo handlers. -/
inductive PostResponse where
  | badRequest
  | methodNotAllowed
  | ok200 (body : Json)

/-- server3 `handlePost`: the method is never examined; a decode error or an
empty `Data` field is a 400; otherwise a 200 whose body re-marshals the
request struct under `received` next to `status: success`. -/
def handlePost3 (method : String) (body : BodyRead) : PostResponse :=
  match body with
  | .tooLarge => .badRequest
  | .malformed => .badRequest
  | .payload j =>
    match decodeS3Body j with
    | none => .badRequest
    | some d =>
      if d = "" then .badRequest
      else
        .ok200 (.jobj [("status", .jstr "success"),
                       ("received", .jobj [("data", .jstr d)])])

/-- Decoding server4's body into `map[string]interface{}`: an object or a
null succeeds (null leaves the nil map), anything else is an error. -/
def decodeS4Body : Json → Option Json
  | .jobj kvs => some (.jobj kvs)
  | .null => some .null
  | _ => none

/-- server4 `apiHandler`: non-POST methods get 405; a decode error a 400;
otherwise a 200 whose body holds `received` and `time` (map keys are
marshalled in sorted order). -/
def apiHandler4 (method : String) (body : BodyRead) (timeText : String) :
    PostResponse :=
  if method ≠ "POST" then .methodNotAllowed
  else
    match body with
    | .tooLarge => .badRequest
    | .malformed => .badRequest
    | .payload j =>
      match decodeS4Body j with
      | none => .badRequest
      | some payload =>
        .ok200 (.jobj [("received", payload), ("time", .jstr timeText)])

/-- Look up a top-level member of a JSON object. -/
def jsonLookup (j : Json) (k : String) : Option Json :=
  match j with
  | .jobj kvs => kvs.lookup k
  | _ => none

/-- Whether the first clean segment of an absolute path begins with the two
characters `".."` (e.g. `/..x`), the situation in which server4's
`strings.HasPrefix(rel, "..")` check fires on an in-root path. -/
def firstSegDotDot (q : String) : Bool :=
  match segsOfAbs q with
  | s :: _ => goStrStarts s ".."
  | [] => false

/-- Concrete filesystem for counterexamples: `/r/f` is a directory now
(modification time 2, size 20); everything else is absent. -/
def fsFix1 : FSModel :=
  ⟨fun path => if path = "/r/f" then some ⟨2, true, 20⟩ else none,
   fun _ => none⟩

/-- Concrete server4 cache: a stale file entry for `/r/f` cached at instant 0
with size 10. -/
def c4Fix1 : Cache4 :=
  fun path => if path = "/r/f" then some ⟨⟨1, false, 10⟩, 1, 0⟩ else none

/-- Concrete filesystem: stat of `/r/f` yields modification time 5, a
directory, size 9. -/
def fsFix2 : FSModel :=
  ⟨fun path => if path = "/r/f" then some ⟨5, true, 9⟩ else none,
   fun _ => none⟩

/-- Concrete server3 cache: `/r/f` cached as a plain file with the same
modification time 5, last accessed at instant 0. -/
def c3Fix2 : Cache3 :=
  fun path => if path = "/r/f" then some ⟨5, false, 0⟩ else none

/-- A filesystem with nothing in it. -/
def fsEmpty : FSModel := ⟨fun _ => none, fun _ => none⟩

/-- An empty server3 cache. -/
def c3Empty : Cache3 := fun _ => none

/-- An empty server4 cache. -/
def c4Empty : Cache4 := fun _ => none

/-- A plain file entry fixture used by witnesses: `/w/.secret` exists as a
file with modification time 3 and size 7. -/
def fsFix3 : FSModel :=
  ⟨fun path => if path = "/w/.secret" then some ⟨3, false, 7⟩ else none,
   fun _ => none⟩

/-- The number of entries a directory listing shows: those whose name does
not begin with a dot. -/
def visCount (files : List DirEntry) : Nat :=
  (files.filter (fun f => !(goStrStarts f.name "."))).length

/-- A filesystem whose stat succeeds everywhere with a fixed plain file. -/
def fsAll : FSModel :=
  ⟨fun _ => some ⟨1, false, 4⟩, fun _ => none⟩

/-- A plain file at `/r/f` with modification time 7 and size 3. -/
def fsFix4 : FSModel :=
  ⟨fun path => if path = "/r/f" then some ⟨7, false, 3⟩ else none,
   fun _ => none⟩

/-! ### Lemmas about the path model -/

theorem stringMk_data (s : String) : String.mk s.data = s := by
  cases s
  rfl

theorem slash_append_data (s : String) : ("/" ++ s).data = '/' :: s.data := by
  simp [String.data_append]

theorem isRooted_slash_append (s : String) : isRooted ("/" ++ s) = true := by
  simp [isRooted, slash_append_data]

theorem splitOnSlash_ne_nil (cs : List Char) : splitOnSlash cs ≠ [] := by
  cases cs with
  | nil => simp [splitOnSlash]
  | cons c rest =>
    simp only [splitOnSlash]
    split
    · simp
    · split <;> simp

theorem splitOnSlash_append (a b : List Char) :
    splitOnSlash (a ++ '/' :: b) = splitOnSlash a ++ splitOnSlash b := by
  induction a with
  | nil => simp [splitOnSlash]
  | cons c rest ih =>
    by_cases hc : c = '/'
    · subst hc
      simp only [List.cons_append, splitOnSlash, if_pos rfl, List.append_eq]
      rw [ih]
      rfl
    · simp only [List.cons_append, splitOnSlash, if_neg hc, List.append_eq]
      rw [ih]
      cases h : splitOnSlash rest with
      | nil => exact absurd h (splitOnSlash_ne_nil rest)
      | cons s ss => simp

theorem mem_splitOnSlash_no_slash (cs : List Char) (s : String)
    (hs : s ∈ splitOnSlash cs) : '/' ∉ s.data := by
  induction cs generalizing s with
  | nil =>
    simp only [splitOnSlash, List.mem_singleton] at hs
    subst hs
    simp
  | cons c rest ih =>
    by_cases hc : c = '/'
    · simp only [splitOnSlash, if_pos hc] at hs
      rcases List.mem_cons.mp hs with h1 | h1
      · subst h1; simp
      · exact ih s h1
    · simp only [splitOnSlash, if_neg hc] at hs
      cases h : splitOnSlash rest with
      | nil => exact absurd h (splitOnSlash_ne_nil rest)
      | cons t ts =>
        rw [h] at hs
        rcases List.mem_cons.mp hs with h1 | h1
        · subst h1
          intro hmem
          rcases List.mem_cons.mp hmem with h2 | h2
          · exact hc h2.symm
          · exact ih t (h ▸ List.mem_cons_self t ts) h2
        · exact ih s (h ▸ List.mem_cons_of_mem t h1)

theorem splitOnSlash_no_slash (cs : List Char) (h : '/' ∉ cs) :
    splitOnSlash cs = [String.mk cs] := by
  induction cs with
  | nil => rfl
  | cons c rest ih =>
    have hc : c ≠ '/' := by
      intro hc
      exact h (by simp [hc])
    simp only [splitOnSlash, if_neg (fun hcc => hc hcc)]
    rw [ih (fun hm => h (by simp [hm]))]

theorem joinSegs_append (xs ys : List String) (hx : xs ≠ []) (hy : ys ≠ []) :
    joinSegs (xs ++ ys) = joinSegs xs ++ "/" ++ joinSegs ys := by
  induction xs with
  | nil => exact absurd rfl hx
  | cons x xs ih =>
    cases xs with
    | nil =>
      cases ys with
      | nil => exact absurd rfl hy
      | cons y ys => simp [joinSegs]
    | cons x2 xs2 =>
      have := ih (by simp)
      simp only [List.cons_append] at this ⊢
      rw [joinSegs, this]
      · cases h2 : (x2 :: xs2) ++ ys with
        | nil => simp at h2
        | cons z zs =>
          rw [joinSegs]
          simp [String.append_assoc]

theorem isGoodSeg_spec (s : String) :
    isGoodSeg s = true ↔ s ≠ "" ∧ s ≠ "." ∧ s ≠ ".." ∧ '/' ∉ s.data := by
  simp [isGoodSeg, and_assoc]

theorem isRooted_ne_empty (p : String) (h : isRooted p = true) : p ≠ "" := by
  intro he
  subst he
  simp [isRooted] at h

theorem cleanLoop_append (r : Bool) (out l₁ l₂ : List String) :
    cleanLoop r out (l₁ ++ l₂) = cleanLoop r (cleanLoop r out l₁) l₂ := by
  induction l₁ generalizing out with
  | nil => rfl
  | cons seg rest ih =>
    simp only [List.cons_append, cleanLoop, List.append_eq]
    by_cases h1 : seg = "" ∨ seg = "."
    · rw [if_pos h1, if_pos h1]
      exact ih out
    · rw [if_neg h1, if_neg h1]
      by_cases h2 : seg = ".."
      · rw [if_pos h2, if_pos h2]
        by_cases h3 : (if r = true then out ≠ []
            else out ≠ [] ∧ out.getLast? ≠ some "..")
        · rw [if_pos h3, if_pos h3]
          exact ih out.dropLast
        · rw [if_neg h3, if_neg h3]
          cases r with
          | true =>
            rw [if_pos rfl, if_pos rfl]
            exact ih out
          | false =>
            rw [if_neg (by simp), if_neg (by simp)]
            exact ih (out ++ [".."])
      · rw [if_neg h2, if_neg h2]
        exact ih (out ++ [seg])

theorem cleanLoop_good (r : Bool) (out l : List String)
    (h : ∀ s ∈ l, isGoodSeg s = true) : cleanLoop r out l = out ++ l := by
  induction l generalizing out with
  | nil => simp [cleanLoop]
  | cons seg rest ih =>
    obtain ⟨h1, h2, h3, _⟩ :=
      (isGoodSeg_spec seg).mp (h seg (List.mem_cons_self seg rest))
    simp only [cleanLoop, if_neg (by tauto : ¬(seg = "" ∨ seg = ".")),
      if_neg h3]
    rw [ih (out ++ [seg]) (fun s hs => h s (List.mem_cons_of_mem seg hs))]
    simp

theorem cleanLoop_skip_empty (r : Bool) (out l : List String) :
    cleanLoop r out ("" :: l) = cleanLoop r out l := by
  simp [cleanLoop]

theorem cleanLoop_rooted_good (out l : List String)
    (hout : ∀ s ∈ out, isGoodSeg s = true)
    (hl : ∀ s ∈ l, '/' ∉ s.data) :
    ∀ s ∈ cleanLoop true out l, isGoodSeg s = true := by
  induction l generalizing out with
  | nil => exact hout
  | cons seg rest ih =>
    have hrest : ∀ s ∈ rest, '/' ∉ s.data :=
      fun s hs => hl s (List.mem_cons_of_mem seg hs)
    by_cases h1 : seg = "" ∨ seg = "."
    · rw [cleanLoop, if_pos h1]
      exact ih out hout hrest
    · by_cases h2 : seg = ".."
      · rw [cleanLoop, if_neg h1, if_pos h2]
        by_cases h3 : out ≠ []
        · rw [if_pos (by simpa using h3)]
          exact ih out.dropLast
            (fun s hs => hout s ((List.dropLast_sublist out).mem hs)) hrest
        · rw [if_neg (by simpa using h3), if_pos rfl]
          exact ih out hout hrest
      · rw [cleanLoop, if_neg h1, if_neg h2]
        refine ih (out ++ [seg]) (fun s hs => ?_) hrest
        rcases List.mem_append.mp hs with hs | hs
        · exact hout s hs
        · rw [List.mem_singleton.mp hs]
          refine (isGoodSeg_spec seg).mpr ⟨?_, ?_, h2, hl seg (List.mem_cons_self seg rest)⟩
          · intro hc; exact h1 (Or.inl hc)
          · intro hc; exact h1 (Or.inr hc)

theorem segsOfAbs_good (p : String) :
    ∀ s ∈ segsOfAbs p, isGoodSeg s = true :=
  cleanLoop_rooted_good [] (splitOnSlash p.data) (by simp)
    (mem_splitOnSlash_no_slash p.data)

theorem clean_rooted (p : String) (hp : isRooted p = true) :
    filepathClean p = "/" ++ joinSegs (segsOfAbs p) := by
  rw [filepathClean, if_neg (isRooted_ne_empty p hp)]
  simp [hp, segsOfAbs]

theorem splitOnSlash_joinSegs (segs : List String)
    (h : ∀ s ∈ segs, isGoodSeg s = true) :
    splitOnSlash (joinSegs segs).data = if segs = [] then [""] else segs := by
  induction segs with
  | nil => rfl
  | cons s rest ih =>
    obtain ⟨h1, _, _, h4⟩ :=
      (isGoodSeg_spec s).mp (h s (List.mem_cons_self s rest))
    cases rest with
    | nil =>
      simp only [joinSegs, if_neg (by simp : ¬([s] : List String) = [])]
      rw [splitOnSlash_no_slash s.data h4, stringMk_data]
    | cons t ts =>
      have hrest := ih (fun x hx => h x (List.mem_cons_of_mem s hx))
      rw [if_neg (by simp)] at hrest
      simp only [joinSegs]
      have hdata : (s ++ "/" ++ joinSegs (t :: ts)).data
          = s.data ++ '/' :: (joinSegs (t :: ts)).data := by
        simp [String.data_append]
      rw [hdata, splitOnSlash_append, splitOnSlash_no_slash s.data h4, hrest,
        stringMk_data]
      simp

theorem segsOfAbs_render (segs : List String)
    (h : ∀ s ∈ segs, isGoodSeg s = true) :
    segsOfAbs ("/" ++ joinSegs segs) = segs := by
  rw [segsOfAbs, slash_append_data]
  have : splitOnSlash ('/' :: (joinSegs segs).data)
      = "" :: splitOnSlash (joinSegs segs).data := by
    simp [splitOnSlash]
  rw [this, cleanLoop_skip_empty, splitOnSlash_joinSegs segs h]
  by_cases hs : segs = []
  · subst hs
    rfl
  · rw [if_neg hs]
    exact cleanLoop_good true [] segs h

theorem clean_render (segs : List String)
    (h : ∀ s ∈ segs, isGoodSeg s = true) :
    filepathClean ("/" ++ joinSegs segs) = "/" ++ joinSegs segs := by
  rw [clean_rooted _ (isRooted_slash_append _), segsOfAbs_render segs h]

theorem isCleanAbs_render (segs : List String)
    (h : ∀ s ∈ segs, isGoodSeg s = true) :
    isCleanAbs ("/" ++ joinSegs segs) :=
  ⟨isRooted_slash_append _, clean_render segs h⟩

theorem cleanLoop_ifList (out segs : List String)
    (h : ∀ s ∈ segs, isGoodSeg s = true) :
    cleanLoop true out ("" :: (if segs = [] then [""] else segs))
      = out ++ segs := by
  rw [cleanLoop_skip_empty]
  by_cases hs : segs = []
  · subst hs
    rw [if_pos rfl, cleanLoop_skip_empty]
    simp [cleanLoop]
  · rw [if_neg hs]
    exact cleanLoop_good true out segs h

theorem joinAbs (bs qs : List String)
    (hb : ∀ s ∈ bs, isGoodSeg s = true) (hq : ∀ s ∈ qs, isGoodSeg s = true) :
    filepathJoin ("/" ++ joinSegs bs) ("/" ++ joinSegs qs)
      = "/" ++ joinSegs (bs ++ qs) := by
  have hne : ("/" ++ joinSegs bs) ≠ "" :=
    isRooted_ne_empty _ (isRooted_slash_append _)
  rw [filepathJoin, if_neg hne]
  have hdata : ("/" ++ joinSegs bs ++ "/" ++ ("/" ++ joinSegs qs)).data
      = ('/' :: (joinSegs bs).data) ++ '/' :: ('/' :: (joinSegs qs).data) := by
    simp [String.data_append]
  have hroot : isRooted ("/" ++ joinSegs bs ++ "/" ++ ("/" ++ joinSegs qs)) = true := by
    rw [isRooted, hdata]
    simp
  rw [clean_rooted _ hroot]
  congr 1
  rw [segsOfAbs, hdata, splitOnSlash_append]
  have h1 : splitOnSlash ('/' :: (joinSegs bs).data)
      = "" :: splitOnSlash (joinSegs bs).data := by
    simp [splitOnSlash]
  have h2 : splitOnSlash ('/' :: (joinSegs qs).data)
      = "" :: splitOnSlash (joinSegs qs).data := by
    simp [splitOnSlash]
  rw [h1, h2, splitOnSlash_joinSegs bs hb, splitOnSlash_joinSegs qs hq]
  rw [show ("" :: (if bs = [] then [""] else bs))
        ++ "" :: (if qs = [] then [""] else qs)
      = ("" :: (if bs = [] then [""] else bs))
        ++ ("" :: (if qs = [] then [""] else qs)) from rfl,
    cleanLoop_append, cleanLoop_ifList [] bs hb, cleanLoop_ifList _ qs hq]
  simp

theorem goodAppend (bs qs : List String)
    (hb : ∀ s ∈ bs, isGoodSeg s = true) (hq : ∀ s ∈ qs, isGoodSeg s = true) :
    ∀ s ∈ bs ++ qs, isGoodSeg s = true := by
  intro s hs
  rcases List.mem_append.mp hs with h | h
  · exact hb s h
  · exact hq s h

theorem joinSegs_data_prefix (bs qs : List String) :
    (joinSegs bs).data <+: (joinSegs (bs ++ qs)).data := by
  by_cases hq : qs = []
  · subst hq
    simp
  · by_cases hb : bs = []
    · subst hb
      simp [joinSegs]
    · rw [joinSegs_append bs qs hb hq]
      simp only [String.data_append]
      rw [List.append_assoc]
      exact List.prefix_append _ _


theorem isPrefixOf_eq_true_iff {l₁ l₂ : List String} :
    l₁.isPrefixOf l₂ = true ↔ l₁ <+: l₂ :=
  List.isPrefixOf_iff_prefix

theorem isPrefixOf_char_iff {l₁ l₂ : List Char} :
    l₁.isPrefixOf l₂ = true ↔ l₁ <+: l₂ :=
  List.isPrefixOf_iff_prefix

theorem goStrStarts_render (bs qs : List String) :
    goStrStarts ("/" ++ joinSegs (bs ++ qs)) ("/" ++ joinSegs bs) = true := by
  rw [goStrStarts, slash_append_data, slash_append_data]
  exact isPrefixOf_char_iff.mpr
    (List.cons_prefix_cons.mpr ⟨rfl, joinSegs_data_prefix bs qs⟩)

theorem withinRoot_render (bs qs : List String)
    (hb : ∀ s ∈ bs, isGoodSeg s = true) (hq : ∀ s ∈ qs, isGoodSeg s = true) :
    withinRoot ("/" ++ joinSegs bs) ("/" ++ joinSegs (bs ++ qs)) = true := by
  rw [withinRoot, segsOfAbs_render bs hb,
    segsOfAbs_render (bs ++ qs) (goodAppend bs qs hb hq)]
  simp [isRooted_slash_append,
    isPrefixOf_eq_true_iff.mpr (List.prefix_append bs qs)]

theorem cleanAbs_form (base : String) (hb : isCleanAbs base) :
    base = "/" ++ joinSegs (segsOfAbs base) := by
  conv_lhs => rw [← hb.2]
  exact clean_rooted base hb.1

theorem render_eq_iff (bs qs : List String)
    (hb : ∀ s ∈ bs, isGoodSeg s = true) (hq : ∀ s ∈ qs, isGoodSeg s = true) :
    ("/" ++ joinSegs (bs ++ qs)) = ("/" ++ joinSegs bs) ↔ qs = [] := by
  constructor
  · intro h
    have := congrArg segsOfAbs h
    rw [segsOfAbs_render (bs ++ qs) (goodAppend bs qs hb hq),
      segsOfAbs_render bs hb] at this
    exact List.append_right_eq_self.mp this
  · intro h
    subst h
    simp

theorem segsOfAbs_root : segsOfAbs "/" = [] := by decide

theorem render_eq_root_iff (bs : List String)
    (hb : ∀ s ∈ bs, isGoodSeg s = true) :
    ("/" ++ joinSegs bs) = "/" ↔ bs = [] := by
  constructor
  · intro h
    have := congrArg segsOfAbs h
    rw [segsOfAbs_render bs hb, segsOfAbs_root] at this
    exact this
  · intro h
    subst h
    rw [joinSegs, String.append_empty]

theorem render_ne_dot (bs : List String) : ("/" ++ joinSegs bs) ≠ "." := by
  intro h
  have := congrArg isRooted h
  rw [isRooted_slash_append] at this
  simp [isRooted] at this

theorem relElems_render (bs : List String)
    (hb : ∀ s ∈ bs, isGoodSeg s = true) (hne : bs ≠ []) :
    relElems ("/" ++ joinSegs bs) = "" :: bs := by
  rw [relElems, if_neg (isRooted_ne_empty _ (isRooted_slash_append _)),
    if_neg (fun h => hne ((render_eq_root_iff bs hb).mp h)), slash_append_data]
  have : splitOnSlash ('/' :: (joinSegs bs).data)
      = "" :: splitOnSlash (joinSegs bs).data := by
    simp [splitOnSlash]
  rw [this, splitOnSlash_joinSegs bs hb, if_neg hne]

theorem dropCommon_self_append (xs zs : List String) :
    dropCommon xs (xs ++ zs) = ([], zs) := by
  induction xs with
  | nil => rfl
  | cons x xs ih =>
    simp only [List.cons_append, dropCommon, if_pos rfl]
    exact ih

theorem rel_of_extension (bs qs : List String)
    (hb : ∀ s ∈ bs, isGoodSeg s = true) (hq : ∀ s ∈ qs, isGoodSeg s = true) :
    filepathRel ("/" ++ joinSegs bs) ("/" ++ joinSegs (bs ++ qs))
      = some (if qs = [] then "." else joinSegs qs) := by
  have hclean_b := clean_render bs hb
  have hclean_t := clean_render (bs ++ qs) (goodAppend bs qs hb hq)
  by_cases hqs : qs = []
  · subst hqs
    simp [filepathRel, hclean_b, hclean_t]
  · simp only [filepathRel, hclean_b, hclean_t,
      if_neg (fun h => hqs ((render_eq_iff bs qs hb hq).mp h)),
      if_neg (render_ne_dot bs), if_neg hqs]
    have hroots : ¬(isRooted ("/" ++ joinSegs bs)
        ≠ isRooted ("/" ++ joinSegs (bs ++ qs))) := by
      rw [isRooted_slash_append, isRooted_slash_append]
      simp
    rw [if_neg hroots]
    by_cases hbs : bs = []
    · subst hbs
      have h1 : ("/" ++ joinSegs ([] : List String)) = "/" := by
        rw [joinSegs, String.append_empty]
      rw [h1]
      have h2 : relElems "/" = [""] := by decide
      rw [h2, List.nil_append, relElems_render qs hq hqs,
        show ("" :: qs) = [""] ++ qs from rfl, dropCommon_self_append [""] qs]
      rfl
    · rw [relElems_render bs hb hbs,
        relElems_render (bs ++ qs) (goodAppend bs qs hb hq) (by simp [hbs]),
        show ("" :: (bs ++ qs)) = ("" :: bs) ++ qs from rfl,
        dropCommon_self_append ("" :: bs) qs]
      rfl

theorem isPrefixOf_dotdot_slash (cs js : List Char) :
    List.isPrefixOf ['.', '.'] (cs ++ '/' :: js)
      = List.isPrefixOf ['.', '.'] cs := by
  match cs with
  | [] => simp [List.isPrefixOf]
  | [c] => simp [List.isPrefixOf]
  | c1 :: c2 :: tl => simp [List.isPrefixOf]

theorem joinSegs_starts_dotdot (q : String) (rest : List String) :
    goStrStarts (joinSegs (q :: rest)) ".." = goStrStarts q ".." := by
  cases rest with
  | nil => rfl
  | cons t ts =>
    rw [goStrStarts, goStrStarts]
    have hdata : (q ++ "/" ++ joinSegs (t :: ts)).data
        = q.data ++ '/' :: (joinSegs (t :: ts)).data := by
      simp [String.data_append]
    rw [joinSegs, hdata]
    exact isPrefixOf_dotdot_slash q.data (joinSegs (t :: ts)).data

theorem s3Resolve_ok (base p : String) (hb : isCleanAbs base)
    (hp : isRooted p = true) :
    s3Resolve base p
      = some (filepathClean p, filepathJoin base (filepathClean p)) := by
  have hcond : goStrStarts (filepathJoin base (filepathClean p)) base = true := by
    have step := goStrStarts_render (segsOfAbs base) (segsOfAbs p)
    rw [← cleanAbs_form base hb] at step
    have hres : filepathJoin base (filepathClean p)
        = "/" ++ joinSegs (segsOfAbs base ++ segsOfAbs p) := by
      conv_lhs =>
        rw [cleanAbs_form base hb, clean_rooted p hp,
          joinAbs (segsOfAbs base) (segsOfAbs p) (segsOfAbs_good base)
            (segsOfAbs_good p)]
    rw [← hres] at step
    exact step
  simp only [s3Resolve]
  rw [if_pos hcond]

theorem resolved_withinRoot (base p : String) (hb : isCleanAbs base)
    (hp : isRooted p = true) :
    withinRoot base (filepathJoin base (filepathClean p)) = true := by
  have step := withinRoot_render (segsOfAbs base) (segsOfAbs p)
    (segsOfAbs_good base) (segsOfAbs_good p)
  rw [← cleanAbs_form base hb] at step
  have hres : filepathJoin base (filepathClean p)
      = "/" ++ joinSegs (segsOfAbs base ++ segsOfAbs p) := by
    conv_lhs =>
      rw [cleanAbs_form base hb, clean_rooted p hp,
        joinAbs (segsOfAbs base) (segsOfAbs p) (segsOfAbs_good base)
          (segsOfAbs_good p)]
  rw [← hres] at step
  exact step

theorem s4Resolve_eq (base p : String) (hb : isCleanAbs base)
    (hp : isRooted p = true) :
    s4Resolve base p
      = (if firstSegDotDot p then none
         else some (filepathJoin base (filepathClean p))) := by
  have hgb := segsOfAbs_good base
  have hgq := segsOfAbs_good p
  have hres : filepathJoin base (filepathClean p)
      = "/" ++ joinSegs (segsOfAbs base ++ segsOfAbs p) := by
    conv_lhs =>
      rw [cleanAbs_form base hb, clean_rooted p hp,
        joinAbs (segsOfAbs base) (segsOfAbs p) hgb hgq]
  have hrel : filepathRel base (filepathJoin base (filepathClean p))
      = some (if segsOfAbs p = [] then "."
              else joinSegs (segsOfAbs p)) := by
    have step := rel_of_extension (segsOfAbs base) (segsOfAbs p) hgb hgq
    rw [← cleanAbs_form base hb, ← hres] at step
    exact step
  have hfsd : firstSegDotDot p
      = (match segsOfAbs p with
         | s :: _ => goStrStarts s ".."
         | [] => false) := rfl
  simp only [s4Resolve, hrel]
  cases hsq : segsOfAbs p with
  | nil =>
    simp [hsq, hfsd, show goStrStarts "." ".." = false from by decide]
  | cons q rest =>
    rw [hfsd, hsq]
    rw [if_neg (by simp : ¬(q :: rest : List String) = []),
      joinSegs_starts_dotdot q rest]

/-! ### Handler-level lemmas -/

theorem s3Rest_touched_eq (fs : FSModel) (c : Cache3) (now : Int)
    (rq fsP : String) (t : List String) :
    (s3Rest fs c now rq fsP t).touched = t ++ [fsP] := by
  rw [s3Rest]
  cases hstat : fs.stat fsP with
  | none => rfl
  | some info =>
    cases hdir : info.isDir with
    | false => simp [hdir]
    | true =>
      simp only [hdir, Bool.not_true]
      cases hrd : fs.readDir fsP <;> simp [hrd]

theorem s3Rest_served (fs : FSModel) (c : Cache3) (now : Int)
    (rq fsP : String) (t : List String) (q : String) (i : FileInfo)
    (h : (s3Rest fs c now rq fsP t).resp = .servedFile q i) :
    q = fsP ∧ fs.stat fsP = some i := by
  rw [s3Rest] at h
  cases hstat : fs.stat fsP with
  | none =>
    rw [hstat] at h
    simp at h
  | some info =>
    rw [hstat] at h
    cases hdir : info.isDir with
    | false =>
      simp only [hdir, Bool.not_false, if_pos rfl] at h
      cases h
      exact ⟨rfl, rfl⟩
    | true =>
      simp only [hdir, Bool.not_true] at h
      cases hrd : fs.readDir fsP with
      | none => rw [hrd] at h; simp at h
      | some files => rw [hrd] at h; simp at h

theorem s3Rest_cache_stat (fs : FSModel) (c : Cache3) (now : Int)
    (rq fsP : String) (t : List String) (i : FileInfo)
    (hi : fs.stat fsP = some i) :
    (s3Rest fs c now rq fsP t).cache
      = cache3Insert c fsP ⟨i.modTime, i.isDir, now⟩ := by
  rw [s3Rest, hi]
  cases hdir : i.isDir with
  | false => simp [hdir]
  | true =>
    simp only [hdir, Bool.not_true]
    cases hrd : fs.readDir fsP <;> simp [hrd]

theorem s3Rest_cache_statfail (fs : FSModel) (c : Cache3) (now : Int)
    (rq fsP : String) (t : List String) (hi : fs.stat fsP = none) :
    (s3Rest fs c now rq fsP t).cache = c := by
  rw [s3Rest, hi]

theorem cache3Insert_self (c : Cache3) (k : String) (v : CacheEntry3) :
    cache3Insert c k v k = some v := by
  simp [cache3Insert]

theorem cache3Insert_other (c : Cache3) (k k' : String) (v : CacheEntry3)
    (hk : k' ≠ k) : cache3Insert c k v k' = c k' := by
  simp [cache3Insert, hk]


theorem handleBrowse3_rejected (base p : String) (fs : FSModel) (c : Cache3)
    (now : Int) (h : s3Resolve base p = none) :
    handleBrowse3 base fs c now p = ⟨.notFound, c, []⟩ := by
  rw [handleBrowse3, h]
  rfl

theorem handleBrowse3_resolved (base p : String) (fs : FSModel) (c : Cache3)
    (now : Int) (rq fsP : String) (h : s3Resolve base p = some (rq, fsP)) :
    handleBrowse3 base fs c now p = s3CacheStep fs c now rq fsP (c fsP) := by
  rw [handleBrowse3, h]
  rfl

theorem s3CacheStep_touched (fs : FSModel) (c : Cache3) (now : Int)
    (rq fsP : String) (oc : Option CacheEntry3) :
    ∀ q ∈ (s3CacheStep fs c now rq fsP oc).touched, q = fsP := by
  intro q hq
  cases oc with
  | none =>
    rw [s3CacheStep, s3Rest_touched_eq] at hq
    simpa using hq
  | some cached =>
    rw [s3CacheStep] at hq
    cases hstat : fs.stat fsP with
    | none =>
      rw [hstat, s3HitStat, s3Rest_touched_eq] at hq
      simpa using hq
    | some info =>
      rw [hstat, s3HitStat] at hq
      by_cases heq : info.modTime = cached.modTime
      · rw [if_pos heq] at hq
        cases hdir : cached.isDir with
        | false =>
          simp only [hdir, Bool.not_false, if_pos rfl] at hq
          simpa using hq
        | true =>
          simp only [hdir, Bool.not_true, Bool.false_eq_true, if_false,
            s3Rest_touched_eq] at hq
          simpa using hq
      · rw [if_neg heq, s3Rest_touched_eq] at hq
        simpa using hq

theorem s3CacheStep_stats (fs : FSModel) (c : Cache3) (now : Int)
    (rq fsP : String) (oc : Option CacheEntry3) :
    fsP ∈ (s3CacheStep fs c now rq fsP oc).touched := by
  cases oc with
  | none =>
    rw [s3CacheStep, s3Rest_touched_eq]
    simp
  | some cached =>
    rw [s3CacheStep]
    cases hstat : fs.stat fsP with
    | none =>
      rw [s3HitStat, s3Rest_touched_eq]
      simp
    | some info =>
      rw [s3HitStat]
      by_cases heq : info.modTime = cached.modTime
      · rw [if_pos heq]
        cases hdir : cached.isDir with
        | false =>
          simp only [hdir, Bool.not_false, if_pos rfl]
          simp
        | true =>
          simp only [hdir, Bool.not_true, Bool.false_eq_true, if_false,
            s3Rest_touched_eq]
          simp
      · rw [if_neg heq, s3Rest_touched_eq]
        simp

theorem s3CacheStep_served (fs : FSModel) (c : Cache3) (now : Int)
    (rq fsP : String) (oc : Option CacheEntry3) (q : String) (i : FileInfo)
    (h : (s3CacheStep fs c now rq fsP oc).resp = .servedFile q i) :
    q = fsP ∧ fs.stat fsP = some i := by
  cases oc with
  | none =>
    rw [s3CacheStep] at h
    exact s3Rest_served fs c now rq fsP [] q i h
  | some cached =>
    rw [s3CacheStep] at h
    cases hstat : fs.stat fsP with
    | none =>
      rw [hstat, s3HitStat] at h
      obtain ⟨hq, hsome⟩ := s3Rest_served fs c now rq fsP [fsP] q i h
      exact ⟨hq, hstat.symm.trans hsome⟩
    | some info =>
      rw [hstat, s3HitStat] at h
      by_cases heq : info.modTime = cached.modTime
      · rw [if_pos heq] at h
        cases hdir : cached.isDir with
        | false =>
          simp only [hdir, Bool.not_false, if_pos rfl] at h
          cases h
          exact ⟨rfl, rfl⟩
        | true =>
          simp only [hdir, Bool.not_true, Bool.false_eq_true, if_false] at h
          obtain ⟨hq, hsome⟩ := s3Rest_served fs _ now rq fsP [fsP] q i h
          exact ⟨hq, hstat.symm.trans hsome⟩
      · rw [if_neg heq] at h
        obtain ⟨hq, hsome⟩ := s3Rest_served fs c now rq fsP [fsP] q i h
        exact ⟨hq, hstat.symm.trans hsome⟩

theorem s3CacheStep_cache_other (fs : FSModel) (c : Cache3) (now : Int)
    (rq fsP k : String) (oc : Option CacheEntry3) (hk : k ≠ fsP) :
    (s3CacheStep fs c now rq fsP oc).cache k = c k := by
  cases oc with
  | none =>
    rw [s3CacheStep]
    cases hstat : fs.stat fsP with
    | none => rw [s3Rest_cache_statfail fs c now rq fsP [] hstat]
    | some info =>
      rw [s3Rest_cache_stat fs c now rq fsP [] info hstat]
      exact cache3Insert_other c fsP k _ hk
  | some cached =>
    rw [s3CacheStep]
    cases hstat : fs.stat fsP with
    | none =>
      rw [s3HitStat, s3Rest_cache_statfail fs c now rq fsP [fsP] hstat]
    | some info =>
      rw [s3HitStat]
      by_cases heq : info.modTime = cached.modTime
      · rw [if_pos heq]
        cases hdir : cached.isDir with
        | false =>
          simp only [hdir, Bool.not_false, if_pos rfl]
          exact cache3Insert_other c fsP k _ hk
        | true =>
          simp only [hdir, Bool.not_true, Bool.false_eq_true, if_false]
          rw [s3Rest_cache_stat fs _ now rq fsP [fsP] info hstat,
            cache3Insert_other _ fsP k _ hk,
            cache3Insert_other c fsP k _ hk]
      · rw [if_neg heq, s3Rest_cache_stat fs c now rq fsP [fsP] info hstat,
          cache3Insert_other c fsP k _ hk]

theorem s3CacheStep_cache_stat (fs : FSModel) (c : Cache3) (now : Int)
    (rq fsP : String) (oc : Option CacheEntry3) (i : FileInfo)
    (hi : fs.stat fsP = some i) :
    (s3CacheStep fs c now rq fsP oc).cache fsP
      = some ⟨i.modTime, i.isDir, now⟩ := by
  cases oc with
  | none =>
    rw [s3CacheStep, s3Rest_cache_stat fs c now rq fsP [] i hi]
    exact cache3Insert_self c fsP _
  | some cached =>
    rw [s3CacheStep, hi, s3HitStat]
    by_cases heq : i.modTime = cached.modTime
    · rw [if_pos heq]
      cases hdir : cached.isDir with
      | false =>
        simp only [hdir, Bool.not_false, if_pos rfl]
        exact cache3Insert_self c fsP _
      | true =>
        simp only [hdir, Bool.not_true, Bool.false_eq_true, if_false]
        rw [s3Rest_cache_stat fs _ now rq fsP [fsP] i hi]
        exact cache3Insert_self _ fsP _
    · rw [if_neg heq, s3Rest_cache_stat fs c now rq fsP [fsP] i hi]
      exact cache3Insert_self c fsP _

theorem s3CacheStep_cache_statfail (fs : FSModel) (c : Cache3) (now : Int)
    (rq fsP : String) (oc : Option CacheEntry3) (hi : fs.stat fsP = none) :
    (s3CacheStep fs c now rq fsP oc).cache = c := by
  cases oc with
  | none =>
    rw [s3CacheStep]
    exact s3Rest_cache_statfail fs c now rq fsP [] hi
  | some cached =>
    rw [s3CacheStep, hi, s3HitStat]
    exact s3Rest_cache_statfail fs c now rq fsP [fsP] hi

theorem fileHandler4_rejected (base p : String) (fs : FSModel) (c : Cache4)
    (now ttl : Int) (h : s4Resolve base p = none) :
    fileHandler4 base fs c now ttl p = ⟨.notFound, c, []⟩ := by
  rw [fileHandler4, h]
  rfl

theorem fileHandler4_resolved (base p : String) (fs : FSModel) (c : Cache4)
    (now ttl : Int) (fsP : String) (h : s4Resolve base p = some fsP) :
    fileHandler4 base fs c now ttl p
      = s4CacheStep fs (filepathClean p) fsP now (getFromCache c now ttl fsP) := by
  rw [fileHandler4, h]
  rfl

theorem getFromCache_fresh (c : Cache4) (now ttl : Int) (path : String)
    (e : CacheEntry4) (hc : c path = some e)
    (hf : now - e.lastAccess < ttl) :
    getFromCache c now ttl path
      = (some e.info, cache4Insert c path { e with lastAccess := now }) := by
  rw [getFromCache, hc, getFromCacheEntry, if_pos hf]

theorem getFromCache_expired (c : Cache4) (now ttl : Int) (path : String)
    (e : CacheEntry4) (hc : c path = some e)
    (hf : ¬(now - e.lastAccess < ttl)) :
    getFromCache c now ttl path = (none, cache4Erase c path) := by
  rw [getFromCache, hc, getFromCacheEntry, if_neg hf]

theorem getFromCache_miss (c : Cache4) (now ttl : Int) (path : String)
    (hc : c path = none) :
    getFromCache c now ttl path = (none, c) := by
  rw [getFromCache, hc, getFromCacheEntry]

theorem s4CacheStep_hit (fs : FSModel) (relPath fsP : String) (now : Int)
    (info : FileInfo) (c1 : Cache4) :
    s4CacheStep fs relPath fsP now (some info, c1)
      = (if info.isDir then ⟨dirList4 fs relPath fsP, c1, []⟩
         else ⟨.served fsP, c1, []⟩) := by
  rw [s4CacheStep]

theorem s4CacheStep_statted (fs : FSModel) (relPath fsP : String)
    (now : Int) (pr : Option FileInfo × Cache4) :
    ∀ q ∈ (s4CacheStep fs relPath fsP now pr).statted, q = fsP := by
  intro q hq
  obtain ⟨oi, c1⟩ := pr
  cases oi with
  | some info =>
    rw [s4CacheStep] at hq
    cases hdir : info.isDir with
    | false => simp [hdir] at hq
    | true => simp [hdir] at hq
  | none =>
    rw [s4CacheStep] at hq
    cases hstat : fs.stat fsP with
    | none =>
      rw [hstat, s4StatStep] at hq
      simpa using hq
    | some info =>
      rw [hstat, s4StatStep] at hq
      cases hdir : info.isDir with
      | false =>
        simp only [hdir, Bool.false_eq_true, if_false] at hq
        simpa using hq
      | true =>
        simp only [hdir, if_pos rfl] at hq
        simpa using hq

/-! ### Cache sweep lemmas -/

theorem cleanCache3_evicts (now ttl : Int) (c : Cache3) (k : String)
    (e : CacheEntry3) (hc : c k = some e) (hold : now - e.lastAccess > ttl) :
    cleanCache3 now ttl c k = none := by
  simp only [cleanCache3, hc, if_pos hold]

theorem cleanCache3_keeps (now ttl : Int) (c : Cache3) (k : String)
    (e : CacheEntry3) (hc : c k = some e) (hfr : now - e.lastAccess ≤ ttl) :
    cleanCache3 now ttl c k = some e := by
  simp only [cleanCache3, hc, if_neg (not_lt.mpr hfr)]

theorem runSweeps3_keeps (ttl : Int) (ts : List Int) (c : Cache3)
    (k : String) (e : CacheEntry3) (hc : c k = some e)
    (hfr : ∀ t ∈ ts, t - e.lastAccess ≤ ttl) :
    runSweeps3 ttl ts c k = some e := by
  induction ts generalizing c with
  | nil => exact hc
  | cons t ts ih =>
    rw [runSweeps3, List.foldl_cons]
    exact ih (cleanCache3 t ttl c)
      (cleanCache3_keeps t ttl c k e hc (hfr t (List.mem_cons_self t ts)))
      (fun t' ht' => hfr t' (List.mem_cons_of_mem t ht'))

theorem cleanCache4_evicts (now ttl : Int) (c : Cache4) (k : String)
    (e : CacheEntry4) (hc : c k = some e) (hold : now - e.lastAccess > ttl) :
    cleanCache4 now ttl c k = none := by
  simp only [cleanCache4, hc, if_pos hold]

theorem cleanCache4_keeps (now ttl : Int) (c : Cache4) (k : String)
    (e : CacheEntry4) (hc : c k = some e) (hfr : now - e.lastAccess ≤ ttl) :
    cleanCache4 now ttl c k = some e := by
  simp only [cleanCache4, hc, if_neg (not_lt.mpr hfr)]

theorem runSweeps4_keeps (ttl : Int) (ts : List Int) (c : Cache4)
    (k : String) (e : CacheEntry4) (hc : c k = some e)
    (hfr : ∀ t ∈ ts, t - e.lastAccess ≤ ttl) :
    runSweeps4 ttl ts c k = some e := by
  induction ts generalizing c with
  | nil => exact hc
  | cons t ts ih =>
    rw [runSweeps4, List.foldl_cons]
    exact ih (cleanCache4 t ttl c)
      (cleanCache4_keeps t ttl c k e hc (hfr t (List.mem_cons_self t ts)))
      (fun t' ht' => hfr t' (List.mem_cons_of_mem t ht'))

/-! ### Sorting lemmas -/

theorem charListLt_iff (as : List Char) : ∀ bs : List Char,
    charListLt as bs = true ↔ as < bs := by
  induction as with
  | nil =>
    intro bs
    cases bs with
    | nil =>
      constructor
      · intro h
        simp [charListLt] at h
      · intro h
        cases h
    | cons b bs =>
      simp only [charListLt]
      constructor
      · intro _
        exact List.Lex.nil
      · intro _
        trivial
  | cons a as ih =>
    intro bs
    cases bs with
    | nil =>
      simp only [charListLt]
      constructor
      · intro h
        simp at h
      · intro h
        cases h
    | cons b bs =>
      by_cases hab : a < b
      · rw [charListLt, if_pos hab]
        constructor
        · intro _
          exact List.Lex.rel hab
        · intro _
          rfl
      · by_cases hba : b < a
        · rw [charListLt, if_neg hab, if_pos hba]
          constructor
          · intro h
            simp at h
          · intro h
            cases h with
            | cons h3 => exact absurd hba (lt_irrefl a)
            | rel h' => exact absurd h' hab
        · have heq : a = b := le_antisymm (not_lt.mp hba) (not_lt.mp hab)
          subst heq
          rw [charListLt, if_neg hab, if_neg hba, ih bs]
          constructor
          · intro h
            exact List.Lex.cons h
          · intro h
            cases h with
            | cons h3 => exact h3
            | rel h' => exact absurd h' (lt_irrefl a)

theorem goStrLess_iff (a b : String) : goStrLess a b = true ↔ a < b := by
  rw [goStrLess, charListLt_iff]
  exact String.lt_iff_toList_lt.symm

theorem goStrLess_false_iff (a b : String) :
    goStrLess a b = false ↔ b ≤ a := by
  rw [← not_lt, ← goStrLess_iff]
  cases h : goStrLess a b <;> simp

theorem s3le_iff (a b : DirEntry) :
    (!(s3Less b a)) = true ↔ a.name ≤ b.name := by
  rw [s3Less, Bool.not_eq_true', goStrLess_false_iff]

theorem s4le_iff (a b : DirEntry) :
    (!(s4Less b a)) = true
      ↔ (a.isDir = true ∧ b.isDir = false)
        ∨ (a.isDir = b.isDir ∧ a.name ≤ b.name) := by
  cases ha : a.isDir <;> cases hb : b.isDir <;>
    simp [s4Less, ha, hb, Bool.not_eq_true', goStrLess_false_iff]

theorem s3le_total (a b : DirEntry) :
    ((!(s3Less b a)) || (!(s3Less a b))) = true := by
  rcases le_total a.name b.name with h | h
  · rw [(s3le_iff a b).mpr h]
    simp
  · rw [(s3le_iff b a).mpr h]
    simp

theorem s3le_trans (a b c : DirEntry) (h1 : (!(s3Less b a)) = true)
    (h2 : (!(s3Less c b)) = true) : (!(s3Less c a)) = true :=
  (s3le_iff a c).mpr (le_trans ((s3le_iff a b).mp h1) ((s3le_iff b c).mp h2))

theorem s3le_antisymm (a b : DirEntry) (h1 : (!(s3Less b a)) = true)
    (h2 : (!(s3Less a b)) = true) : a.name = b.name :=
  le_antisymm ((s3le_iff a b).mp h1) ((s3le_iff b a).mp h2)

theorem s4le_total (a b : DirEntry) :
    ((!(s4Less b a)) || (!(s4Less a b))) = true := by
  rw [Bool.or_eq_true]
  cases ha : a.isDir <;> cases hb : b.isDir
  · rcases le_total a.name b.name with h | h
    · exact Or.inl ((s4le_iff a b).mpr (Or.inr ⟨by rw [ha, hb], h⟩))
    · exact Or.inr ((s4le_iff b a).mpr (Or.inr ⟨by rw [ha, hb], h⟩))
  · exact Or.inr ((s4le_iff b a).mpr (Or.inl ⟨hb, ha⟩))
  · exact Or.inl ((s4le_iff a b).mpr (Or.inl ⟨ha, hb⟩))
  · rcases le_total a.name b.name with h | h
    · exact Or.inl ((s4le_iff a b).mpr (Or.inr ⟨by rw [ha, hb], h⟩))
    · exact Or.inr ((s4le_iff b a).mpr (Or.inr ⟨by rw [ha, hb], h⟩))

theorem s4le_trans (a b c : DirEntry) (h1 : (!(s4Less b a)) = true)
    (h2 : (!(s4Less c b)) = true) : (!(s4Less c a)) = true := by
  rcases (s4le_iff a b).mp h1 with ⟨ha, hb⟩ | ⟨hab, hnm1⟩ <;>
    rcases (s4le_iff b c).mp h2 with ⟨hb2, hc⟩ | ⟨hbc, hnm2⟩
  · rw [hb] at hb2
    exact absurd hb2 (by simp)
  · exact (s4le_iff a c).mpr (Or.inl ⟨ha, hbc ▸ hb⟩)
  · exact (s4le_iff a c).mpr (Or.inl ⟨hab ▸ hb2, hc⟩)
  · exact (s4le_iff a c).mpr (Or.inr ⟨hab.trans hbc, hnm1.trans hnm2⟩)

theorem s4le_antisymm (a b : DirEntry) (h1 : (!(s4Less b a)) = true)
    (h2 : (!(s4Less a b)) = true) : a.name = b.name := by
  rcases (s4le_iff a b).mp h1 with ⟨ha, hb⟩ | ⟨hab, hnm1⟩
  · rcases (s4le_iff b a).mp h2 with ⟨hb2, _⟩ | ⟨hba, _⟩
    · rw [hb] at hb2
      exact absurd hb2 (by simp)
    · rw [ha, hb] at hba
      exact absurd hba (by simp)
  · rcases (s4le_iff b a).mp h2 with ⟨hb2, ha2⟩ | ⟨_, hnm2⟩
    · rw [hb2, ha2] at hab
      exact absurd hab (by simp)
    · exact le_antisymm hnm1 hnm2

theorem eq_of_perm_sorted_names (le : DirEntry → DirEntry → Bool)
    (hanti : ∀ a b, le a b = true → le b a = true → a.name = b.name) :
    ∀ (l₁ l₂ : List DirEntry), l₁.Perm l₂ →
      (l₁.map DirEntry.name).Nodup →
      l₁.Pairwise (fun a b => le a b = true) →
      l₂.Pairwise (fun a b => le a b = true) → l₁ = l₂ := by
  intro l₁
  induction l₁ with
  | nil =>
    intro l₂ hp _ _ _
    exact (hp.symm.eq_nil).symm
  | cons a t₁ ih =>
    intro l₂ hp hnd hs1 hs2
    cases l₂ with
    | nil =>
      have := hp.eq_nil
      simp at this
    | cons b t₂ =>
      have hab : a = b := by
        by_contra hne
        have hb1 : b ∈ a :: t₁ := hp.mem_iff.mpr (List.mem_cons_self b t₂)
        have ha2 : a ∈ b :: t₂ := hp.mem_iff.mp (List.mem_cons_self a t₁)
        have hb1' : b ∈ t₁ := by
          rcases List.mem_cons.mp hb1 with h | h
          · exact absurd h.symm hne
          · exact h
        have ha2' : a ∈ t₂ := by
          rcases List.mem_cons.mp ha2 with h | h
          · exact absurd h hne
          · exact h
        have hle1 : le a b = true := (List.pairwise_cons.mp hs1).1 b hb1'
        have hle2 : le b a = true := (List.pairwise_cons.mp hs2).1 a ha2'
        have hname := hanti a b hle1 hle2
        have hndc : (∀ x ∈ t₁, ¬x.name = a.name)
            ∧ (List.map DirEntry.name t₁).Nodup := by simpa using hnd
        exact hndc.1 b hb1' hname.symm
      subst hab
      have hp' : t₁.Perm t₂ := hp.cons_inv
      have hnd' : (t₁.map DirEntry.name).Nodup := by
        have hndc : (∀ x ∈ t₁, ¬x.name = a.name)
            ∧ (List.map DirEntry.name t₁).Nodup := by simpa using hnd
        exact hndc.2
      rw [ih t₂ hp' hnd' (List.pairwise_cons.mp hs1).2
        (List.pairwise_cons.mp hs2).2]

theorem s3Sort_sorted (l : List DirEntry) :
    (s3Sort l).Pairwise (fun a b => (!(s3Less b a)) = true) :=
  List.sorted_mergeSort s3le_trans s3le_total l

theorem s3Sort_perm (l : List DirEntry) : (s3Sort l).Perm l :=
  List.mergeSort_perm l _

theorem s4Sort_sorted (l : List DirEntry) :
    (s4Sort l).Pairwise (fun a b => (!(s4Less b a)) = true) :=
  List.sorted_mergeSort s4le_trans s4le_total l

theorem s4Sort_perm (l : List DirEntry) : (s4Sort l).Perm l :=
  List.mergeSort_perm l _

theorem s3Sort_eq_of_perm (l₁ l₂ : List DirEntry) (hp : l₁.Perm l₂)
    (hnd : (l₁.map DirEntry.name).Nodup) : s3Sort l₁ = s3Sort l₂ :=
  eq_of_perm_sorted_names _ s3le_antisymm (s3Sort l₁) (s3Sort l₂)
    ((s3Sort_perm l₁).trans (hp.trans (s3Sort_perm l₂).symm))
    (((s3Sort_perm l₁).map DirEntry.name).nodup_iff.mpr hnd)
    (s3Sort_sorted l₁) (s3Sort_sorted l₂)

theorem s4Sort_eq_of_perm (l₁ l₂ : List DirEntry) (hp : l₁.Perm l₂)
    (hnd : (l₁.map DirEntry.name).Nodup) : s4Sort l₁ = s4Sort l₂ :=
  eq_of_perm_sorted_names _ s4le_antisymm (s4Sort l₁) (s4Sort l₂)
    ((s4Sort_perm l₁).trans (hp.trans (s4Sort_perm l₂).symm))
    (((s4Sort_perm l₁).map DirEntry.name).nodup_iff.mpr hnd)
    (s4Sort_sorted l₁) (s4Sort_sorted l₂)

theorem s3Lines_eq (rp : String) (l : List DirEntry) :
    s3Lines rp l
      = (l.filter (fun f => !(goStrStarts f.name "."))).map
          (s3EntryHTML rp) := by
  induction l with
  | nil => rfl
  | cons f t ih =>
    cases hH : goStrStarts f.name "." with
    | true => simp [s3Lines, List.filterMap_cons, List.filter_cons, hH, ← ih]
    | false => simp [s3Lines, List.filterMap_cons, List.filter_cons, hH, ← ih]

theorem s4Lines_eq (rp : String) (l : List DirEntry) :
    s4Lines rp l
      = (l.filter (fun f => !(goStrStarts f.name "."))).map
          (s4EntryHTML rp) := by
  induction l with
  | nil => rfl
  | cons f t ih =>
    cases hH : goStrStarts f.name "." with
    | true => simp [s4Lines, List.filterMap_cons, List.filter_cons, hH, ← ih]
    | false => simp [s4Lines, List.filterMap_cons, List.filter_cons, hH, ← ih]

/-! ### Character-count lemmas for the escaped renderings -/

theorem countChar_append (ch : Char) (a b : String) :
    countChar ch (a ++ b) = countChar ch a + countChar ch b := by
  simp [countChar, String.data_append, List.count_append]

theorem countChar_foldl (ch : Char) (L : List String) :
    ∀ init : String, countChar ch (L.foldl (fun r s => r ++ s) init)
      = countChar ch init + (L.map (countChar ch)).sum := by
  induction L with
  | nil => intro init; simp
  | cons s t ih =>
    intro init
    rw [List.foldl_cons, ih (init ++ s), countChar_append]
    simp [Nat.add_assoc]

theorem countChar_join (ch : Char) (L : List String) :
    countChar ch (String.join L) = (L.map (countChar ch)).sum := by
  rw [String.join, countChar_foldl]
  simp [countChar]

theorem escChar_no_lt (c : Char) : countChar '<' (escChar c) = 0 := by
  rw [escChar]
  by_cases h1 : c = '&'
  · rw [if_pos h1]; decide
  rw [if_neg h1]
  by_cases h2 : c = '\''
  · rw [if_pos h2]; decide
  rw [if_neg h2]
  by_cases h3 : c = '<'
  · rw [if_pos h3]; decide
  rw [if_neg h3]
  by_cases h4 : c = '>'
  · rw [if_pos h4]; decide
  rw [if_neg h4]
  by_cases h5 : c = '"'
  · rw [if_pos h5]; decide
  rw [if_neg h5, countChar]
  exact List.count_eq_zero.mpr
    (fun h => h3 (List.mem_singleton.mp h).symm)

theorem escChar_no_quot (c : Char) : countChar '"' (escChar c) = 0 := by
  rw [escChar]
  by_cases h1 : c = '&'
  · rw [if_pos h1]; decide
  rw [if_neg h1]
  by_cases h2 : c = '\''
  · rw [if_pos h2]; decide
  rw [if_neg h2]
  by_cases h3 : c = '<'
  · rw [if_pos h3]; decide
  rw [if_neg h3]
  by_cases h4 : c = '>'
  · rw [if_pos h4]; decide
  rw [if_neg h4]
  by_cases h5 : c = '"'
  · rw [if_pos h5]; decide
  rw [if_neg h5, countChar]
  exact List.count_eq_zero.mpr
    (fun h => h5 (List.mem_singleton.mp h).symm)

theorem escChar4_no_lt (c : Char) : countChar '<' (escChar4 c) = 0 := by
  rw [escChar4]
  by_cases h0 : c = Char.ofNat 0
  · rw [if_pos h0]; decide
  · rw [if_neg h0]; exact escChar_no_lt c

theorem escChar4_no_quot (c : Char) : countChar '"' (escChar4 c) = 0 := by
  rw [escChar4]
  by_cases h0 : c = Char.ofNat 0
  · rw [if_pos h0]; decide
  · rw [if_neg h0]; exact escChar_no_quot c

theorem htmlEscape_no_lt (s : String) :
    countChar '<' (htmlEscapeString s) = 0 := by
  rw [htmlEscapeString, countChar_join]
  refine List.sum_eq_zero ?_
  intro x hx
  rw [List.map_map] at hx
  obtain ⟨c, _, rfl⟩ := List.mem_map.mp hx
  exact escChar_no_lt c

theorem htmlEscape_no_quot (s : String) :
    countChar '"' (htmlEscapeString s) = 0 := by
  rw [htmlEscapeString, countChar_join]
  refine List.sum_eq_zero ?_
  intro x hx
  rw [List.map_map] at hx
  obtain ⟨c, _, rfl⟩ := List.mem_map.mp hx
  exact escChar_no_quot c

theorem tmplEscape_no_lt (s : String) :
    countChar '<' (templateHTMLEscapeString s) = 0 := by
  rw [templateHTMLEscapeString, countChar_join]
  refine List.sum_eq_zero ?_
  intro x hx
  rw [List.map_map] at hx
  obtain ⟨c, _, rfl⟩ := List.mem_map.mp hx
  exact escChar4_no_lt c

theorem tmplEscape_no_quot (s : String) :
    countChar '"' (templateHTMLEscapeString s) = 0 := by
  rw [templateHTMLEscapeString, countChar_join]
  refine List.sum_eq_zero ?_
  intro x hx
  rw [List.map_map] at hx
  obtain ⟨c, _, rfl⟩ := List.mem_map.mp hx
  exact escChar4_no_quot c

theorem decDigit_ne_lt (d : Nat) : decDigit d ≠ '<' := by
  rcases Nat.lt_or_ge d 9 with h | h
  · interval_cases d <;> decide
  · obtain ⟨k, rfl⟩ : ∃ k, d = k + 9 := ⟨d - 9, by omega⟩
    have hd : decDigit (k + 9) = '9' := rfl
    rw [hd]
    decide

theorem decDigit_ne_quot (d : Nat) : decDigit d ≠ '"' := by
  rcases Nat.lt_or_ge d 9 with h | h
  · interval_cases d <;> decide
  · obtain ⟨k, rfl⟩ : ∃ k, d = k + 9 := ⟨d - 9, by omega⟩
    have hd : decDigit (k + 9) = '9' := rfl
    rw [hd]
    decide

theorem natDecAux_mem (fuel n : Nat) (c : Char) (hc : c ∈ natDecAux fuel n) :
    ∃ d, c = decDigit d := by
  induction fuel generalizing n with
  | zero => simp [natDecAux] at hc
  | succ fuel ih =>
    rw [natDecAux] at hc
    by_cases h10 : n < 10
    · rw [if_pos h10] at hc
      exact ⟨n, (List.mem_singleton.mp hc)⟩
    · rw [if_neg h10] at hc
      rcases List.mem_append.mp hc with h | h
      · exact ih (n / 10) h
      · exact ⟨n % 10, List.mem_singleton.mp h⟩

theorem natDec_no_lt (n : Nat) : countChar '<' (natDec n) = 0 := by
  rw [natDec, countChar]
  refine List.count_eq_zero.mpr ?_
  intro h
  obtain ⟨d, hd⟩ := natDecAux_mem (n + 1) n '<' h
  exact decDigit_ne_lt d hd.symm

theorem natDec_no_quot (n : Nat) : countChar '"' (natDec n) = 0 := by
  rw [natDec, countChar]
  refine List.count_eq_zero.mpr ?_
  intro h
  obtain ⟨d, hd⟩ := natDecAux_mem (n + 1) n '"' h
  exact decDigit_ne_quot d hd.symm

set_option maxRecDepth 16384

theorem s3Header_lt (rp : String) : countChar '<' (s3HeaderHTML rp) = 11 := by
  simp only [s3HeaderHTML, countChar_append, htmlEscape_no_lt]
  decide

theorem s3Header_quot (rp : String) :
    countChar '"' (s3HeaderHTML rp) = 0 := by
  simp only [s3HeaderHTML, countChar_append, htmlEscape_no_quot]
  decide

theorem s3Parent_lt (rp : String) : countChar '<' (s3ParentHTML rp) = 4 := by
  simp only [s3ParentHTML, countChar_append, htmlEscape_no_lt]
  decide

theorem s3Parent_quot (rp : String) :
    countChar '"' (s3ParentHTML rp) = 2 := by
  simp only [s3ParentHTML, countChar_append, htmlEscape_no_quot]
  decide

theorem s3Entry_lt (rp : String) (f : DirEntry)
    (ht : countChar '<' f.modTimeText = 0) :
    countChar '<' (s3EntryHTML rp f) = 4 := by
  simp only [s3EntryHTML, countChar_append, htmlEscape_no_lt, natDec_no_lt,
    ht]
  decide

theorem s3Entry_quot (rp : String) (f : DirEntry)
    (ht : countChar '"' f.modTimeText = 0) :
    countChar '"' (s3EntryHTML rp f) = 2 := by
  simp only [s3EntryHTML, countChar_append, htmlEscape_no_quot,
    natDec_no_quot, ht]
  decide

theorem s4Header_lt (rp : String) : countChar '<' (s4HeaderHTML rp) = 9 := by
  simp only [s4HeaderHTML, countChar_append, tmplEscape_no_lt]
  decide

theorem s4Header_quot (rp : String) :
    countChar '"' (s4HeaderHTML rp) = 0 := by
  simp only [s4HeaderHTML, countChar_append, tmplEscape_no_quot]
  decide

theorem s4Parent_lt (rp : String) : countChar '<' (s4ParentHTML rp) = 4 := by
  simp only [s4ParentHTML, countChar_append, tmplEscape_no_lt]
  decide

theorem s4Parent_quot (rp : String) :
    countChar '"' (s4ParentHTML rp) = 2 := by
  simp only [s4ParentHTML, countChar_append, tmplEscape_no_quot]
  decide

theorem s4Entry_lt (rp : String) (f : DirEntry)
    (ht : countChar '<' f.modTimeText = 0) :
    countChar '<' (s4EntryHTML rp f) = 4 := by
  simp only [s4EntryHTML, countChar_append, tmplEscape_no_lt, natDec_no_lt,
    ht]
  decide

theorem s4Entry_quot (rp : String) (f : DirEntry)
    (ht : countChar '"' f.modTimeText = 0) :
    countChar '"' (s4EntryHTML rp f) = 2 := by
  simp only [s4EntryHTML, countChar_append, tmplEscape_no_quot,
    natDec_no_quot, ht]
  decide

theorem lines_sum_count (ch : Char) (k : Nat) (rp : String)
    (files : List DirEntry) (entry : String → DirEntry → String)
    (hentry : ∀ f ∈ files, countChar ch (entry rp f) = k)
    (sorted : List DirEntry) (hperm : sorted.Perm files) :
    ((List.map (countChar ch)
        ((sorted.filter (fun f => !(goStrStarts f.name "."))).map
          (entry rp))).sum)
      = k * visCount files := by
  rw [List.map_map]
  have hlen : (sorted.filter (fun f => !(goStrStarts f.name "."))).length
      = visCount files := (hperm.filter _).length_eq
  rw [List.sum_eq_card_nsmul _ k]
  · rw [List.length_map, hlen, smul_eq_mul, Nat.mul_comm]
  · intro x hx
    obtain ⟨f, hf, rfl⟩ := List.mem_map.mp hx
    exact hentry f (hperm.mem_iff.mp (List.mem_of_mem_filter hf))

theorem s3Listing_lt (rp : String) (files : List DirEntry)
    (ht : ∀ f ∈ files, countChar '<' f.modTimeText = 0) :
    countChar '<' (s3ListingHTML rp files)
      = 14 + (if rp = "/" then 0 else 4) + 4 * visCount files := by
  rw [s3ListingHTML]
  simp only [countChar_append]
  rw [s3Header_lt, countChar_join, s3Lines_eq,
    lines_sum_count '<' 4 rp files s3EntryHTML
      (fun f hf => s3Entry_lt rp f (ht f hf)) (s3Sort files)
      (s3Sort_perm files)]
  have hfoot : countChar '<' "</ul></body></html>" = 3 := by decide
  rw [hfoot]
  by_cases hrp : rp = "/"
  · rw [if_neg (fun hne => hne hrp), if_pos hrp]
    have h0 : countChar '<' "" = 0 := rfl
    rw [h0]
    omega
  · rw [if_pos hrp, s3Parent_lt, if_neg hrp]
    omega

theorem s3Listing_quot (rp : String) (files : List DirEntry)
    (ht : ∀ f ∈ files, countChar '"' f.modTimeText = 0) :
    countChar '"' (s3ListingHTML rp files)
      = (if rp = "/" then 0 else 2) + 2 * visCount files := by
  rw [s3ListingHTML]
  simp only [countChar_append]
  rw [s3Header_quot, countChar_join, s3Lines_eq,
    lines_sum_count '"' 2 rp files s3EntryHTML
      (fun f hf => s3Entry_quot rp f (ht f hf)) (s3Sort files)
      (s3Sort_perm files)]
  have hfoot : countChar '"' "</ul></body></html>" = 0 := by decide
  rw [hfoot]
  by_cases hrp : rp = "/"
  · rw [if_neg (fun hne => hne hrp), if_pos hrp]
    have h0 : countChar '"' "" = 0 := rfl
    rw [h0]
    omega
  · rw [if_pos hrp, s3Parent_quot, if_neg hrp]
    omega

theorem s4Listing_lt (rp : String) (files : List DirEntry)
    (ht : ∀ f ∈ files, countChar '<' f.modTimeText = 0) :
    countChar '<' (s4ListingHTML rp files)
      = 12 + (if rp = "/" then 0 else 4) + 4 * visCount files := by
  rw [s4ListingHTML]
  simp only [countChar_append]
  rw [s4Header_lt, countChar_join, s4Lines_eq,
    lines_sum_count '<' 4 rp files s4EntryHTML
      (fun f hf => s4Entry_lt rp f (ht f hf)) (s4Sort files)
      (s4Sort_perm files)]
  have hfoot : countChar '<' "</ul></body></html>" = 3 := by decide
  rw [hfoot]
  by_cases hrp : rp = "/"
  · rw [if_neg (fun hne => hne hrp), if_pos hrp]
    have h0 : countChar '<' "" = 0 := rfl
    rw [h0]
    omega
  · rw [if_pos hrp, s4Parent_lt, if_neg hrp]
    omega

theorem s4Listing_quot (rp : String) (files : List DirEntry)
    (ht : ∀ f ∈ files, countChar '"' f.modTimeText = 0) :
    countChar '"' (s4ListingHTML rp files)
      = (if rp = "/" then 0 else 2) + 2 * visCount files := by
  rw [s4ListingHTML]
  simp only [countChar_append]
  rw [s4Header_quot, countChar_join, s4Lines_eq,
    lines_sum_count '"' 2 rp files s4EntryHTML
      (fun f hf => s4Entry_quot rp f (ht f hf)) (s4Sort files)
      (s4Sort_perm files)]
  have hfoot : countChar '"' "</ul></body></html>" = 0 := by decide
  rw [hfoot]
  by_cases hrp : rp = "/"
  · rw [if_neg (fun hne => hne hrp), if_pos hrp]
    have h0 : countChar '"' "" = 0 := rfl
    rw [h0]
    omega
  · rw [if_pos hrp, s4Parent_quot, if_neg hrp]
    omega

/-! ### JSON endpoint lemmas -/

theorem foldData_nomatch (kvs : List (String × Json)) :
    ∀ cur : String, (∀ kv ∈ kvs, goEqualFold kv.1 "data" = false) →
      List.foldlM
        (fun cur kv =>
          if goEqualFold kv.1 "data" then setDataField cur kv.2
          else some cur)
        cur kvs = some cur := by
  induction kvs with
  | nil => intro cur _; rfl
  | cons kv rest ih =>
    intro cur h
    rw [List.foldlM_cons,
      if_neg (by rw [h kv (List.mem_cons_self kv rest)]; simp)]
    exact ih cur (fun kv' h' => h kv' (List.mem_cons_of_mem kv h'))

theorem decodeS3Body_nomatch (kvs : List (String × Json))
    (h : ∀ kv ∈ kvs, goEqualFold kv.1 "data" = false) :
    decodeS3Body (.jobj kvs) = some "" :=
  foldData_nomatch kvs "" h

theorem handlePost3_payload (m : String) (j : Json) :
    handlePost3 m (.payload j)
      = (match decodeS3Body j with
         | none => .badRequest
         | some d =>
           if d = "" then .badRequest
           else
             .ok200 (.jobj [("status", .jstr "success"),
                            ("received", .jobj [("data", .jstr d)])])) := rfl

theorem handlePost3_decode_err (m : String) (j : Json)
    (h : decodeS3Body j = none) :
    handlePost3 m (.payload j) = .badRequest := by
  rw [handlePost3_payload, h]

theorem handlePost3_decode_empty (m : String) (j : Json)
    (h : decodeS3Body j = some "") :
    handlePost3 m (.payload j) = .badRequest := by
  rw [handlePost3_payload, h]
  rfl

theorem handlePost3_decode_ok (m : String) (j : Json) (d : String)
    (h : decodeS3Body j = some d) (hd : d ≠ "") :
    handlePost3 m (.payload j)
      = .ok200 (.jobj [("status", .jstr "success"),
                       ("received", .jobj [("data", .jstr d)])]) := by
  rw [handlePost3_payload, h]
  simp [hd]

theorem apiHandler4_notPost (m : String) (b : BodyRead) (t : String)
    (hm : m ≠ "POST") : apiHandler4 m b t = .methodNotAllowed := by
  rw [apiHandler4.eq_def, if_pos hm]

theorem apiHandler4_post (b : BodyRead) (t : String) :
    apiHandler4 "POST" b t
      = (match b with
         | .tooLarge => .badRequest
         | .malformed => .badRequest
         | .payload j =>
           match decodeS4Body j with
           | none => .badRequest
           | some payload =>
             .ok200 (.jobj [("received", payload), ("time", .jstr t)])) := by
  rw [apiHandler4.eq_def, if_neg (by simp)]

theorem readBody_tooLarge (n : Nat) (pj : Option Json) (h : n > 1048576) :
    readBody n pj = .tooLarge := by
  rw [readBody.eq_def, if_pos h]

theorem s3CacheStep_serves (fs : FSModel) (c : Cache3) (now : Int)
    (rq fsP : String) (i : FileInfo) (hi : fs.stat fsP = some i)
    (hd : i.isDir = false) :
    (s3CacheStep fs c now rq fsP none).resp = .servedFile fsP i := by
  rw [s3CacheStep, s3Rest, hi]
  simp [hd]

theorem s4CacheStep_serves (fs : FSModel) (relPath fsP : String)
    (now : Int) (c1 : Cache4) (i : FileInfo) (hi : fs.stat fsP = some i)
    (hd : i.isDir = false) :
    (s4CacheStep fs relPath fsP now (none, c1)).resp = .served fsP := by
  rw [s4CacheStep, hi, s4StatStep]
  simp [hd]

/-! ### Claims -/

/-- Claim C1: for every request path whose cleaned, root-joined absolute
path does not lie within the root directory (segment-wise containment, so a
sibling root such as `/base-evil` of root `/base` is rejected), both servers
respond 404 — and, unconditionally, every filesystem path either handler
touches for a rooted request lies within the root, so no out-of-root read
ever occurs. -/
theorem spec_C1 (base p : String) (fs : FSModel) (c3 : Cache3) (c4 : Cache4)
    (now ttl : Int) (hb : isCleanAbs base) (hp : isRooted p = true) :
    (∀ q ∈ (handleBrowse3 base fs c3 now p).touched,
        withinRoot base q = true)
    ∧ (∀ q ∈ (fileHandler4 base fs c4 now ttl p).statted,
        withinRoot base q = true)
    ∧ (withinRoot base (filepathJoin base (filepathClean p)) = false →
        (handleBrowse3 base fs c3 now p).resp = S3Response.notFound
        ∧ (fileHandler4 base fs c4 now ttl p).resp = S4Response.notFound) := by
  have hwr := resolved_withinRoot base p hb hp
  have hres3 := s3Resolve_ok base p hb hp
  have hres4 := s4Resolve_eq base p hb hp
  refine ⟨?_, ?_, ?_⟩
  · intro q hq
    rw [handleBrowse3_resolved base p fs c3 now _ _ hres3] at hq
    rw [s3CacheStep_touched fs c3 now (filepathClean p)
      (filepathJoin base (filepathClean p)) _ q hq]
    exact hwr
  · intro q hq
    cases hfsd : firstSegDotDot p with
    | true =>
      rw [hfsd, if_pos rfl] at hres4
      rw [fileHandler4_rejected base p fs c4 now ttl hres4] at hq
      simp at hq
    | false =>
      rw [hfsd, if_neg (by simp)] at hres4
      rw [fileHandler4_resolved base p fs c4 now ttl _ hres4] at hq
      rw [s4CacheStep_statted fs (filepathClean p)
        (filepathJoin base (filepathClean p)) now _ q hq]
      exact hwr
  · intro hfalse
    exact absurd (hwr.symm.trans hfalse) (by decide)

/-- Witness for C1 at the root `/srv` and the classic traversal request
`/../etc/passwd`. -/
theorem spec_C1_witness :
    isCleanAbs "/srv" ∧ isRooted "/../etc/passwd" = true
    ∧ ((∀ q ∈ (handleBrowse3 "/srv" fsEmpty c3Empty 0 "/../etc/passwd").touched,
          withinRoot "/srv" q = true)
      ∧ (∀ q ∈ (fileHandler4 "/srv" fsEmpty c4Empty 0 5 "/../etc/passwd").statted,
          withinRoot "/srv" q = true)
      ∧ (withinRoot "/srv" (filepathJoin "/srv" (filepathClean "/../etc/passwd")) = false →
          (handleBrowse3 "/srv" fsEmpty c3Empty 0 "/../etc/passwd").resp
            = S3Response.notFound
          ∧ (fileHandler4 "/srv" fsEmpty c4Empty 0 5 "/../etc/passwd").resp
            = S4Response.notFound)) :=
  ⟨⟨by decide, by decide⟩, by decide,
   spec_C1 "/srv" "/../etc/passwd" fsEmpty c3Empty c4Empty 0 5
     ⟨by decide, by decide⟩ (by decide)⟩

/-- Counterexample to claim C10: for root `/base` and request `/..x` the
resolved path `/base/..x` lies within the root and the filesystem would
stat it successfully, yet server4's `strings.HasPrefix(rel, "..")` branch
rejects the request with 404 and performs no stat — so the rejection branch
is in fact taken for some request. -/
theorem spec_C10_cex :
    (fileHandler4 "/base" fsAll c4Empty 0 5 "/..x").resp
      = S4Response.notFound
    ∧ (fileHandler4 "/base" fsAll c4Empty 0 5 "/..x").statted = []
    ∧ withinRoot "/base" (filepathJoin "/base" (filepathClean "/..x")) = true
    ∧ fsAll.stat (filepathJoin "/base" (filepathClean "/..x"))
        = some ⟨1, false, 4⟩ :=
  ⟨by decide, by decide, by decide, rfl⟩

/-- Claim C10, amended: for every rooted request path, Clean followed by
Join yields a path within the absolute root, and server3's prefix-check
rejection branch is never taken; server4's Rel-based branch is taken exactly
when the first clean segment of the request path itself begins with the two
characters `..` (e.g. `/..x`), in which case an in-root path is spuriously
rejected; classic traversal inputs such as `/../../etc/passwd` are
normalised in-root and handled by the ordinary lookup. -/
theorem spec_C10 (base p : String) (hb : isCleanAbs base)
    (hp : isRooted p = true) :
    s3Resolve base p
      = some (filepathClean p, filepathJoin base (filepathClean p))
    ∧ withinRoot base (filepathJoin base (filepathClean p)) = true
    ∧ s4Resolve base p
        = (if firstSegDotDot p then none
           else some (filepathJoin base (filepathClean p))) :=
  ⟨s3Resolve_ok base p hb hp, resolved_withinRoot base p hb hp,
   s4Resolve_eq base p hb hp⟩

/-- Witness for C10 at root `/srv` and request `/a/..//etc/passwd`. -/
theorem spec_C10_witness :
    isCleanAbs "/srv" ∧ isRooted "/a/..//etc/passwd" = true
    ∧ (s3Resolve "/srv" "/a/..//etc/passwd"
        = some (filepathClean "/a/..//etc/passwd",
            filepathJoin "/srv" (filepathClean "/a/..//etc/passwd"))
      ∧ withinRoot "/srv"
          (filepathJoin "/srv" (filepathClean "/a/..//etc/passwd")) = true
      ∧ s4Resolve "/srv" "/a/..//etc/passwd"
          = (if firstSegDotDot "/a/..//etc/passwd" then none
             else some (filepathJoin "/srv"
                 (filepathClean "/a/..//etc/passwd")))) :=
  ⟨⟨by decide, by decide⟩, by decide,
   spec_C10 "/srv" "/a/..//etc/passwd" ⟨by decide, by decide⟩ (by decide)⟩

/-- Counterexample to claim C2: in server4, a request whose resolved path
`/r/f` has a fresh cache entry (age 1 < TTL 5) performs no stat at all and
is dispatched as a plain file from the stale cached metadata, even though
the real filesystem now reports the path as a directory with different
size — the cache is used precisely to skip the stat call. -/
theorem spec_C2_cex :
    (fileHandler4 "/r" fsFix1 c4Fix1 1 5 "/f").resp = S4Response.served "/r/f"
    ∧ (fileHandler4 "/r" fsFix1 c4Fix1 1 5 "/f").statted = []
    ∧ c4Fix1 "/r/f" = some ⟨⟨1, false, 10⟩, 1, 0⟩
    ∧ fsFix1.stat "/r/f" = some ⟨2, true, 20⟩ :=
  ⟨by decide, by decide, rfl, rfl⟩

/-- Claim C2, amended: server3 behaves as claimed — every resolved request
performs a real stat of the path (the path is in the touched list) and a
served response always carries the freshly stat-ed metadata, so a
modification is observed even within the TTL window; server4, however,
skips the stat entirely whenever the resolved path has a cache entry
younger than the TTL and branches on the cached (possibly stale)
metadata. -/
theorem spec_C2 (base p : String) (fs : FSModel) (c3 : Cache3) (c4 : Cache4)
    (now ttl : Int) :
    (∀ rq fsP, s3Resolve base p = some (rq, fsP) →
        fsP ∈ (handleBrowse3 base fs c3 now p).touched)
    ∧ (∀ rq fsP q i, s3Resolve base p = some (rq, fsP) →
        (handleBrowse3 base fs c3 now p).resp = S3Response.servedFile q i →
        q = fsP ∧ fs.stat fsP = some i)
    ∧ (∀ fsP e, s4Resolve base p = some fsP → c4 fsP = some e →
        now - e.lastAccess < ttl →
        (fileHandler4 base fs c4 now ttl p).statted = []
        ∧ (fileHandler4 base fs c4 now ttl p).resp
            = (if e.info.isDir then dirList4 fs (filepathClean p) fsP
               else S4Response.served fsP)) := by
  refine ⟨?_, ?_, ?_⟩
  · intro rq fsP hres
    rw [handleBrowse3_resolved base p fs c3 now rq fsP hres]
    exact s3CacheStep_stats fs c3 now rq fsP (c3 fsP)
  · intro rq fsP q i hres hr
    rw [handleBrowse3_resolved base p fs c3 now rq fsP hres] at hr
    exact s3CacheStep_served fs c3 now rq fsP (c3 fsP) q i hr
  · intro fsP e hres hc hfresh
    rw [fileHandler4_resolved base p fs c4 now ttl fsP hres,
      getFromCache_fresh c4 now ttl fsP e hc hfresh, s4CacheStep_hit]
    cases hd : e.info.isDir with
    | false => simp [hd]
    | true => simp [hd]

/-- Witness for C2: a server3 request for `/f` under root `/r` (stat then
serve with fresh metadata) and a server4 request with a fresh cache entry
(no stat, stale dispatch). -/
theorem spec_C2_witness :
    s3Resolve "/r" "/f" = some ("/f", "/r/f")
    ∧ (handleBrowse3 "/r" fsFix4 c3Empty 9 "/f").resp
        = S3Response.servedFile "/r/f" ⟨7, false, 3⟩
    ∧ s4Resolve "/r" "/f" = some "/r/f"
    ∧ c4Fix1 "/r/f" = some ⟨⟨1, false, 10⟩, 1, 0⟩
    ∧ (1 : Int) - 0 < 5
    ∧ "/r/f" ∈ (handleBrowse3 "/r" fsFix4 c3Empty 9 "/f").touched
    ∧ ("/r/f" = "/r/f" ∧ fsFix4.stat "/r/f" = some ⟨7, false, 3⟩)
    ∧ ((fileHandler4 "/r" fsFix1 c4Fix1 1 5 "/f").statted = []
      ∧ (fileHandler4 "/r" fsFix1 c4Fix1 1 5 "/f").resp
          = (if (⟨⟨1, false, 10⟩, 1, 0⟩ : CacheEntry4).info.isDir
             then dirList4 fsFix1 (filepathClean "/f") "/r/f"
             else S4Response.served "/r/f")) :=
  ⟨by decide, by decide, by decide, rfl, by decide,
   (spec_C2 "/r" "/f" fsFix4 c3Empty c4Fix1 9 5).1 "/f" "/r/f" (by decide),
   (spec_C2 "/r" "/f" fsFix4 c3Empty c4Fix1 9 5).2.1 "/f" "/r/f" "/r/f"
     ⟨7, false, 3⟩ (by decide) (by decide),
   (spec_C2 "/r" "/f" fsFix1 c3Empty c4Fix1 1 5).2.2 "/r/f"
     ⟨⟨1, false, 10⟩, 1, 0⟩ (by decide) rfl (by decide)⟩

/-- Counterexample to claim C3: with `/r/f` cached as a plain file and a
fresh stat reporting the same modification time 5 but a directory, server3
overwrites the entry with the fresh directory flag — the stored entry is
`⟨5, true, 7⟩`, not the cached entry with only last_access refreshed, which
would be `⟨5, false, 7⟩`. -/
theorem spec_C3_cex :
    (handleBrowse3 "/r" fsFix2 c3Fix2 7 "/f").cache "/r/f"
      = some ⟨5, true, 7⟩
    ∧ c3Fix2 "/r/f" = some ⟨5, false, 0⟩
    ∧ fsFix2.stat "/r/f" = some ⟨5, true, 9⟩
    ∧ some (⟨5, true, 7⟩ : CacheEntry3) ≠ some ⟨5, false, 7⟩ :=
  ⟨by decide, rfl, rfl, by decide⟩

/-- Claim C3, amended: on each server3 request the entry for the resolved
path is the only one written; whenever the stat succeeds the stored entry
carries exactly the freshly observed modification time and directory flag
and the current time as last_access (so the stored modification time always
equals the real one observed at the entry's last validation); when the
fresh modification time equals the cached one the stored entry keeps that
modification time and refreshes last_access, but takes the freshly observed
directory flag rather than the cached one; when the stat fails the cache is
unchanged. -/
theorem spec_C3 (base p : String) (fs : FSModel) (c : Cache3) (now : Int)
    (rq fsP : String) (h : s3Resolve base p = some (rq, fsP)) :
    (∀ k, k ≠ fsP → (handleBrowse3 base fs c now p).cache k = c k)
    ∧ (∀ i, fs.stat fsP = some i →
        (handleBrowse3 base fs c now p).cache fsP
          = some ⟨i.modTime, i.isDir, now⟩)
    ∧ (fs.stat fsP = none →
        (handleBrowse3 base fs c now p).cache fsP = c fsP)
    ∧ (∀ e i, c fsP = some e → fs.stat fsP = some i →
        i.modTime = e.modTime →
        (handleBrowse3 base fs c now p).cache fsP
          = some ⟨e.modTime, i.isDir, now⟩) := by
  rw [handleBrowse3_resolved base p fs c now rq fsP h]
  refine ⟨?_, ?_, ?_, ?_⟩
  · intro k hk
    exact s3CacheStep_cache_other fs c now rq fsP k (c fsP) hk
  · intro i hi
    exact s3CacheStep_cache_stat fs c now rq fsP (c fsP) i hi
  · intro hi
    rw [s3CacheStep_cache_statfail fs c now rq fsP (c fsP) hi]
  · intro e i _ hi hmt
    rw [s3CacheStep_cache_stat fs c now rq fsP (c fsP) i hi, hmt]

/-- Witness for C3 at the concrete modification-time-equal request of the
counterexample. -/
theorem spec_C3_witness :
    s3Resolve "/r" "/f" = some ("/f", "/r/f")
    ∧ c3Fix2 "/r/f" = some ⟨5, false, 0⟩
    ∧ fsFix2.stat "/r/f" = some ⟨5, true, 9⟩
    ∧ ((5 : Int) = 5)
    ∧ (handleBrowse3 "/r" fsFix2 c3Fix2 7 "/f").cache "/r/f"
        = some ⟨(5 : Int), true, 7⟩ :=
  ⟨by decide, rfl, rfl, rfl,
   (spec_C3 "/r" "/f" fsFix2 c3Fix2 7 "/f" "/r/f" (by decide)).2.2.2
     ⟨5, false, 0⟩ ⟨5, true, 9⟩ rfl rfl rfl⟩

/-- Claim C4: after a sweep tick, every cache entry whose last access is
older than the TTL is absent (both servers); an entry whose last access
stays within the TTL of a tick survives it unchanged, and hence an entry
refreshed at least once every TTL interval survives any run of sweep
ticks. -/
theorem spec_C4 (now ttl : Int) (c3 : Cache3) (c4 : Cache4) (k : String)
    (e3 : CacheEntry3) (e4 : CacheEntry4) (ts : List Int) :
    (c3 k = some e3 → now - e3.lastAccess > ttl →
        cleanCache3 now ttl c3 k = none)
    ∧ (c3 k = some e3 → now - e3.lastAccess ≤ ttl →
        cleanCache3 now ttl c3 k = some e3)
    ∧ (c3 k = some e3 → (∀ t ∈ ts, t - e3.lastAccess ≤ ttl) →
        runSweeps3 ttl ts c3 k = some e3)
    ∧ (c4 k = some e4 → now - e4.lastAccess > ttl →
        cleanCache4 now ttl c4 k = none)
    ∧ (c4 k = some e4 → now - e4.lastAccess ≤ ttl →
        cleanCache4 now ttl c4 k = some e4)
    ∧ (c4 k = some e4 → (∀ t ∈ ts, t - e4.lastAccess ≤ ttl) →
        runSweeps4 ttl ts c4 k = some e4) :=
  ⟨fun hc hold => cleanCache3_evicts now ttl c3 k e3 hc hold,
   fun hc hfr => cleanCache3_keeps now ttl c3 k e3 hc hfr,
   fun hc hfr => runSweeps3_keeps ttl ts c3 k e3 hc hfr,
   fun hc hold => cleanCache4_evicts now ttl c4 k e4 hc hold,
   fun hc hfr => cleanCache4_keeps now ttl c4 k e4 hc hfr,
   fun hc hfr => runSweeps4_keeps ttl ts c4 k e4 hc hfr⟩

/-- Witness for C4: an entry last accessed at instant 0 is evicted by a
sweep at instant 10 with TTL 3, and survives the run of sweeps at instants
1, 2, 3 (each within the TTL of the last access). -/
theorem spec_C4_witness :
    c3Fix2 "/r/f" = some ⟨5, false, 0⟩
    ∧ ((10 : Int) - 0 > 3)
    ∧ (∀ t ∈ ([1, 2, 3] : List Int), t - (0 : Int) ≤ 3)
    ∧ cleanCache3 10 3 c3Fix2 "/r/f" = none
    ∧ runSweeps3 3 [1, 2, 3] c3Fix2 "/r/f" = some ⟨5, false, 0⟩ :=
  ⟨rfl, by decide, by decide,
   (spec_C4 10 3 c3Fix2 c4Fix1 "/r/f" ⟨5, false, 0⟩ ⟨⟨1, false, 10⟩, 1, 0⟩
     [1, 2, 3]).1 rfl (by decide),
   (spec_C4 10 3 c3Fix2 c4Fix1 "/r/f" ⟨5, false, 0⟩ ⟨⟨1, false, 10⟩, 1, 0⟩
     [1, 2, 3]).2.2.1 rfl (by decide)⟩

/-- Counterexample to claim C5: server3 sorts a directory purely
lexicographically by name, so the plain file `a` is listed before the
directory `b` — not directories before files. -/
theorem spec_C5_cex :
    s3Sort [⟨"b", true, 2, "t"⟩, ⟨"a", false, 1, "t"⟩]
      = [⟨"a", false, 1, "t"⟩, ⟨"b", true, 2, "t"⟩]
    ∧ (⟨"a", false, 1, "t"⟩ : DirEntry).isDir = false
    ∧ (⟨"b", true, 2, "t"⟩ : DirEntry).isDir = true
    ∧ s3Lines "/" (s3Sort [⟨"b", true, 2, "t"⟩, ⟨"a", false, 1, "t"⟩])
      = [s3EntryHTML "/" ⟨"a", false, 1, "t"⟩,
         s3EntryHTML "/" ⟨"b", true, 2, "t"⟩] := by
  have hsort : s3Sort [⟨"b", true, 2, "t"⟩, ⟨"a", false, 1, "t"⟩]
      = [⟨"a", false, 1, "t"⟩, ⟨"b", true, 2, "t"⟩] :=
    eq_of_perm_sorted_names _ s3le_antisymm _ _
      ((s3Sort_perm _).trans (by decide))
      (((s3Sort_perm _).map DirEntry.name).nodup_iff.mpr (by decide))
      (s3Sort_sorted _) (by decide)
  refine ⟨hsort, rfl, rfl, ?_⟩
  rw [hsort]
  decide

/-- Claim C5, amended: server4's listing order is directories before files
and then lexicographic by name; server3's is plain lexicographic by name;
both orders are total and, for entry lists with distinct names (as directory
contents have), unique — so two requests that enumerate the same entries in
any order render byte-identical HTML. -/
theorem spec_C5 (rp : String) (files files' : List DirEntry)
    (hnd : (files.map DirEntry.name).Nodup) (hperm : files.Perm files') :
    (s4Sort files).Pairwise
      (fun a b => (a.isDir = true ∧ b.isDir = false)
        ∨ (a.isDir = b.isDir ∧ a.name ≤ b.name))
    ∧ (s3Sort files).Pairwise (fun a b => a.name ≤ b.name)
    ∧ s3ListingHTML rp files = s3ListingHTML rp files'
    ∧ s4ListingHTML rp files = s4ListingHTML rp files' := by
  refine ⟨?_, ?_, ?_, ?_⟩
  · exact (s4Sort_sorted files).imp (fun h => (s4le_iff _ _).mp h)
  · exact (s3Sort_sorted files).imp (fun h => (s3le_iff _ _).mp h)
  · rw [s3ListingHTML, s3ListingHTML,
      s3Sort_eq_of_perm files files' hperm hnd]
  · rw [s4ListingHTML, s4ListingHTML,
      s4Sort_eq_of_perm files files' hperm hnd]

/-- Witness for C5 on a two-entry directory enumerated in both orders. -/
theorem spec_C5_witness :
    (([⟨"doc", true, 2, "t"⟩, ⟨"app", false, 1, "t"⟩] : List DirEntry).map
        DirEntry.name).Nodup
    ∧ ([⟨"doc", true, 2, "t"⟩, ⟨"app", false, 1, "t"⟩] : List DirEntry).Perm
        [⟨"app", false, 1, "t"⟩, ⟨"doc", true, 2, "t"⟩]
    ∧ ((s4Sort [⟨"doc", true, 2, "t"⟩, ⟨"app", false, 1, "t"⟩]).Pairwise
        (fun a b => (a.isDir = true ∧ b.isDir = false)
          ∨ (a.isDir = b.isDir ∧ a.name ≤ b.name))
      ∧ (s3Sort [⟨"doc", true, 2, "t"⟩, ⟨"app", false, 1, "t"⟩]).Pairwise
          (fun a b => a.name ≤ b.name)
      ∧ s3ListingHTML "/d" [⟨"doc", true, 2, "t"⟩, ⟨"app", false, 1, "t"⟩]
          = s3ListingHTML "/d" [⟨"app", false, 1, "t"⟩, ⟨"doc", true, 2, "t"⟩]
      ∧ s4ListingHTML "/d" [⟨"doc", true, 2, "t"⟩, ⟨"app", false, 1, "t"⟩]
          = s4ListingHTML "/d" [⟨"app", false, 1, "t"⟩, ⟨"doc", true, 2, "t"⟩]) :=
  ⟨by decide, by decide,
   spec_C5 "/d" [⟨"doc", true, 2, "t"⟩, ⟨"app", false, 1, "t"⟩]
     [⟨"app", false, 1, "t"⟩, ⟨"doc", true, 2, "t"⟩] (by decide) (by decide)⟩

/-- Claim C6: every line either server renders for a directory comes from
an entry whose name does not begin with a dot (so dotted entries are
omitted, and the number of rendered lines is the number of non-dotted
entries), while a direct request for a dotted path that passes the resolver
and stats as a plain file is served normally — the serving path has no
hidden-name check. -/
theorem spec_C6 (rp : String) (files : List DirEntry) (base p : String)
    (fs : FSModel) (c3 : Cache3) (c4 : Cache4) (now ttl : Int) :
    (∀ line ∈ s3Lines rp (s3Sort files), ∃ f, f ∈ files
        ∧ goStrStarts f.name "." = false ∧ line = s3EntryHTML rp f)
    ∧ (s3Lines rp (s3Sort files)).length = visCount files
    ∧ (∀ line ∈ s4Lines rp (s4Sort files), ∃ f, f ∈ files
        ∧ goStrStarts f.name "." = false ∧ line = s4EntryHTML rp f)
    ∧ (s4Lines rp (s4Sort files)).length = visCount files
    ∧ (∀ rq fsP i, s3Resolve base p = some (rq, fsP) → c3 fsP = none →
        fs.stat fsP = some i → i.isDir = false →
        (handleBrowse3 base fs c3 now p).resp = S3Response.servedFile fsP i)
    ∧ (∀ fsP i, s4Resolve base p = some fsP → c4 fsP = none →
        fs.stat fsP = some i → i.isDir = false →
        (fileHandler4 base fs c4 now ttl p).resp = S4Response.served fsP) := by
  refine ⟨?_, ?_, ?_, ?_, ?_, ?_⟩
  · intro line hline
    rw [s3Lines_eq] at hline
    obtain ⟨f, hf, rfl⟩ := List.mem_map.mp hline
    refine ⟨f, (s3Sort_perm files).mem_iff.mp (List.mem_of_mem_filter hf),
      ?_, rfl⟩
    have := List.of_mem_filter hf
    simpa using this
  · rw [s3Lines_eq, List.length_map]
    exact ((s3Sort_perm files).filter _).length_eq
  · intro line hline
    rw [s4Lines_eq] at hline
    obtain ⟨f, hf, rfl⟩ := List.mem_map.mp hline
    refine ⟨f, (s4Sort_perm files).mem_iff.mp (List.mem_of_mem_filter hf),
      ?_, rfl⟩
    have := List.of_mem_filter hf
    simpa using this
  · rw [s4Lines_eq, List.length_map]
    exact ((s4Sort_perm files).filter _).length_eq
  · intro rq fsP i hres hc hi hd
    rw [handleBrowse3_resolved base p fs c3 now rq fsP hres, hc]
    exact s3CacheStep_serves fs c3 now rq fsP i hi hd
  · intro fsP i hres hc hi hd
    rw [fileHandler4_resolved base p fs c4 now ttl fsP hres,
      getFromCache_miss c4 now ttl fsP hc]
    exact s4CacheStep_serves fs (filepathClean p) fsP now c4 i hi hd

/-- Witness for C6: a directory holding `.secret` and `pub` renders only
the `pub` line, and the direct request `/.secret` under root `/w` is served
as a file by both handlers. -/
theorem spec_C6_witness :
    s3EntryHTML "/" ⟨"pub", false, 1, "t"⟩
      ∈ s3Lines "/" (s3Sort [⟨".secret", false, 1, "t"⟩, ⟨"pub", false, 1, "t"⟩])
    ∧ (∃ f, f ∈ ([⟨".secret", false, 1, "t"⟩, ⟨"pub", false, 1, "t"⟩] : List DirEntry)
        ∧ goStrStarts f.name "." = false
        ∧ s3EntryHTML "/" ⟨"pub", false, 1, "t"⟩ = s3EntryHTML "/" f)
    ∧ s3Resolve "/w" "/.secret" = some ("/.secret", "/w/.secret")
    ∧ c3Empty "/w/.secret" = none
    ∧ fsFix3.stat "/w/.secret" = some ⟨3, false, 7⟩
    ∧ (handleBrowse3 "/w" fsFix3 c3Empty 0 "/.secret").resp
        = S3Response.servedFile "/w/.secret" ⟨3, false, 7⟩
    ∧ (fileHandler4 "/w" fsFix3 c4Empty 0 5 "/.secret").resp
        = S4Response.served "/w/.secret" := by
  have h6 := spec_C6 "/" [⟨".secret", false, 1, "t"⟩, ⟨"pub", false, 1, "t"⟩]
    "/w" "/.secret" fsFix3 c3Empty c4Empty 0 5
  have hmem : s3EntryHTML "/" ⟨"pub", false, 1, "t"⟩
      ∈ s3Lines "/" (s3Sort [⟨".secret", false, 1, "t"⟩, ⟨"pub", false, 1, "t"⟩]) := by
    rw [s3Lines_eq]
    refine List.mem_map.mpr ⟨⟨"pub", false, 1, "t"⟩, ?_, rfl⟩
    refine List.mem_filter.mpr ⟨?_, by decide⟩
    exact (s3Sort_perm _).mem_iff.mpr (by decide)
  refine ⟨hmem, h6.1 _ hmem, by decide, rfl, rfl, ?_, ?_⟩
  · exact h6.2.2.2.2.1 "/.secret" "/w/.secret" ⟨3, false, 7⟩ (by decide) rfl
      rfl rfl
  · exact h6.2.2.2.2.2 "/w/.secret" ⟨3, false, 7⟩ (by decide) rfl rfl rfl

/-- Claim C7: in both servers' rendered listings every entry name, link
href and the displayed request path is HTML-escaped before embedding — so
(given the formatted time fields, which come from fixed numeric layouts,
contain no `<` or `"`) the number of `<` and of `"` characters in the whole
document is a fixed function of the number of visible entries and whether a
parent link is shown, independent of the content of names, links and the
request path. -/
theorem spec_C7 (rp : String) (files : List DirEntry)
    (ht : ∀ f ∈ files, countChar '<' f.modTimeText = 0
        ∧ countChar '"' f.modTimeText = 0) :
    countChar '<' (s3ListingHTML rp files)
      = 14 + (if rp = "/" then 0 else 4) + 4 * visCount files
    ∧ countChar '"' (s3ListingHTML rp files)
      = (if rp = "/" then 0 else 2) + 2 * visCount files
    ∧ countChar '<' (s4ListingHTML rp files)
      = 12 + (if rp = "/" then 0 else 4) + 4 * visCount files
    ∧ countChar '"' (s4ListingHTML rp files)
      = (if rp = "/" then 0 else 2) + 2 * visCount files :=
  ⟨s3Listing_lt rp files (fun f hf => (ht f hf).1),
   s3Listing_quot rp files (fun f hf => (ht f hf).2),
   s4Listing_lt rp files (fun f hf => (ht f hf).1),
   s4Listing_quot rp files (fun f hf => (ht f hf).2)⟩

/-- Witness for C7 on a directory whose entry name and request path carry
HTML metacharacters. -/
theorem spec_C7_witness :
    (∀ f ∈ ([⟨"<i>\"x\"</i>", false, 1, "2024-01-02 03:04:05"⟩] : List DirEntry),
        countChar '<' f.modTimeText = 0 ∧ countChar '"' f.modTimeText = 0)
    ∧ countChar '<' (s3ListingHTML "/<evil>\"" [⟨"<i>\"x\"</i>", false, 1, "2024-01-02 03:04:05"⟩])
        = 14 + (if ("/<evil>\"" : String) = "/" then 0 else 4)
          + 4 * visCount [⟨"<i>\"x\"</i>", false, 1, "2024-01-02 03:04:05"⟩]
    ∧ countChar '"' (s3ListingHTML "/<evil>\"" [⟨"<i>\"x\"</i>", false, 1, "2024-01-02 03:04:05"⟩])
        = (if ("/<evil>\"" : String) = "/" then 0 else 2)
          + 2 * visCount [⟨"<i>\"x\"</i>", false, 1, "2024-01-02 03:04:05"⟩]
    ∧ countChar '<' (s4ListingHTML "/<evil>\"" [⟨"<i>\"x\"</i>", false, 1, "2024-01-02 03:04:05"⟩])
        = 12 + (if ("/<evil>\"" : String) = "/" then 0 else 4)
          + 4 * visCount [⟨"<i>\"x\"</i>", false, 1, "2024-01-02 03:04:05"⟩]
    ∧ countChar '"' (s4ListingHTML "/<evil>\"" [⟨"<i>\"x\"</i>", false, 1, "2024-01-02 03:04:05"⟩])
        = (if ("/<evil>\"" : String) = "/" then 0 else 2)
          + 2 * visCount [⟨"<i>\"x\"</i>", false, 1, "2024-01-02 03:04:05"⟩] := by
  have hw := spec_C7 "/<evil>\""
    [⟨"<i>\"x\"</i>", false, 1, "2024-01-02 03:04:05"⟩] (by decide)
  exact ⟨by decide, hw.1, hw.2.1, hw.2.2.1, hw.2.2.2⟩

/-- Counterexample to claim C8: server4's successful echo response to
`POST {"data":"x"}` is `{received: ..., time: ...}` — it has no `status`
field at all, against the claim that the response's status field is
`"success"`. -/
theorem spec_C8_cex :
    apiHandler4 "POST" (readBody 10 (some (.jobj [("data", .jstr "x")]))) "T0"
      = PostResponse.ok200 (.jobj [("received", .jobj [("data", .jstr "x")]),
          ("time", .jstr "T0")])
    ∧ jsonLookup (.jobj [("received", .jobj [("data", .jstr "x")]),
        ("time", .jstr "T0")]) "status" = none :=
  ⟨rfl, rfl⟩

/-- Claim C8, amended: server4's endpoint accepts only POST (anything else
gets 405), caps the body at 1 MiB, answers 400 on oversized or malformed
bodies, and answers 200 with `{received: <decoded body>, time: <now>}` — no
status field; server3's endpoint never examines the method, applies the
same 1 MiB cap and 400 on decode failure, rejects an empty `data` string,
and answers 200 with `{status: "success", received: {data: <the string>}}`. -/
theorem spec_C8 (m t d : String) (n : Nat) (pj : Option Json)
    (kvs : List (String × Json)) (b : BodyRead) :
    (m ≠ "POST" → apiHandler4 m b t = PostResponse.methodNotAllowed)
    ∧ (n > 1048576 → readBody n pj = BodyRead.tooLarge)
    ∧ (apiHandler4 "POST" .tooLarge t = PostResponse.badRequest
      ∧ apiHandler4 "POST" .malformed t = PostResponse.badRequest)
    ∧ apiHandler4 "POST" (.payload (.jobj kvs)) t
        = PostResponse.ok200 (.jobj [("received", .jobj kvs),
            ("time", .jstr t)])
    ∧ (handlePost3 m .tooLarge = PostResponse.badRequest
      ∧ handlePost3 m .malformed = PostResponse.badRequest)
    ∧ (d ≠ "" → handlePost3 m (.payload (.jobj [("data", .jstr d)]))
        = PostResponse.ok200 (.jobj [("status", .jstr "success"),
            ("received", .jobj [("data", .jstr d)])])) := by
  refine ⟨?_, ?_, ⟨?_, ?_⟩, ?_, ⟨rfl, rfl⟩, ?_⟩
  · intro hm
    exact apiHandler4_notPost m b t hm
  · intro hn
    exact readBody_tooLarge n pj hn
  · rw [apiHandler4_post]
  · rw [apiHandler4_post]
  · rw [apiHandler4_post]
    rfl
  · intro hd
    exact handlePost3_decode_ok m (.jobj [("data", .jstr d)]) d rfl hd

/-- Witness for C8: a GET is rejected by server4 with 405 (but accepted by
server3), an oversized body reads as too large, and the non-empty string
payload `"x"` succeeds on server3. -/
theorem spec_C8_witness :
    ("GET" : String) ≠ "POST"
    ∧ (2000000 : Nat) > 1048576
    ∧ ("x" : String) ≠ ""
    ∧ apiHandler4 "GET" (.payload (.jobj [("data", .jstr "x")])) "T1"
        = PostResponse.methodNotAllowed
    ∧ readBody 2000000 (some .null) = BodyRead.tooLarge
    ∧ handlePost3 "GET" (.payload (.jobj [("data", .jstr "x")]))
        = PostResponse.ok200 (.jobj [("status", .jstr "success"),
            ("received", .jobj [("data", .jstr "x")])]) :=
  ⟨by decide, by decide, by decide,
   (spec_C8 "GET" "T1" "x" 2000000 (some .null)
     [("data", .jstr "x")] (.payload (.jobj [("data", .jstr "x")]))).1
       (by decide),
   (spec_C8 "GET" "T1" "x" 2000000 (some .null)
     [("data", .jstr "x")] (.payload (.jobj [("data", .jstr "x")]))).2.1
       (by decide),
   (spec_C8 "GET" "T1" "x" 2000000 (some .null)
     [("data", .jstr "x")] (.payload (.jobj [("data", .jstr "x")]))).2.2.2.2.2
       (by decide)⟩

/-- Counterexample to claim C9: the body `{"DATA":"x"}` has no top-level
`data` member, yet server3 answers 200, because Go's `encoding/json`
matches struct fields case-insensitively. -/
theorem spec_C9_cex :
    handlePost3 "POST" (.payload (.jobj [("DATA", .jstr "x")]))
      = PostResponse.ok200 (.jobj [("status", .jstr "success"),
          ("received", .jobj [("data", .jstr "x")])])
    ∧ List.lookup "data" [("DATA", Json.jstr "x")] = none :=
  ⟨rfl, rfl⟩

/-- Claim C9, amended: server3's echo rejects with 400 every well-formed
JSON body whose value for the `data` field — keys matched case-insensitively
as `encoding/json` does, later duplicates overriding — is missing, null,
not a string, or the empty string, and every body whose top level is not an
object (or null); only a body decoding to a non-empty string in that field
receives the 200 success response. -/
theorem spec_C9 (m s d : String) (bv : Bool) (nv : Int) (xs : List Json)
    (kvs : List (String × Json)) (k : String) (j : Json) :
    handlePost3 m (.payload (.jstr s)) = PostResponse.badRequest
    ∧ handlePost3 m (.payload (.jbool bv)) = PostResponse.badRequest
    ∧ handlePost3 m (.payload (.jnum nv)) = PostResponse.badRequest
    ∧ handlePost3 m (.payload (.jarr xs)) = PostResponse.badRequest
    ∧ handlePost3 m (.payload .null) = PostResponse.badRequest
    ∧ ((∀ kv ∈ kvs, goEqualFold kv.1 "data" = false) →
        handlePost3 m (.payload (.jobj kvs)) = PostResponse.badRequest)
    ∧ (goEqualFold k "data" = true →
        handlePost3 m (.payload (.jobj [(k, .jnum nv)]))
          = PostResponse.badRequest)
    ∧ (decodeS3Body j = some "" →
        handlePost3 m (.payload j) = PostResponse.badRequest)
    ∧ (decodeS3Body j = some d → d ≠ "" →
        handlePost3 m (.payload j)
          = PostResponse.ok200 (.jobj [("status", .jstr "success"),
              ("received", .jobj [("data", .jstr d)])])) := by
  refine ⟨rfl, rfl, rfl, rfl, rfl, ?_, ?_, ?_, ?_⟩
  · intro hno
    exact handlePost3_decode_empty m (.jobj kvs) (decodeS3Body_nomatch kvs hno)
  · intro hk
    refine handlePost3_decode_err m (.jobj [(k, .jnum nv)]) ?_
    rw [decodeS3Body, List.foldlM_cons, if_pos hk]
    rfl
  · intro hdec
    exact handlePost3_decode_empty m j hdec
  · intro hdec hd
    exact handlePost3_decode_ok m j d hdec hd

/-- Witness for C9: no key of `{"other":"x"}` matches `data`, `{"data":3}`
has a non-string value, and `{"data":"hi"}` succeeds. -/
theorem spec_C9_witness :
    (∀ kv ∈ ([("other", Json.jstr "x")] : List (String × Json)),
        goEqualFold kv.1 "data" = false)
    ∧ goEqualFold "data" "data" = true
    ∧ decodeS3Body (.jobj [("data", .jstr "hi")]) = some "hi"
    ∧ ("hi" : String) ≠ ""
    ∧ handlePost3 "POST" (.payload (.jobj [("other", .jstr "x")]))
        = PostResponse.badRequest
    ∧ handlePost3 "POST" (.payload (.jobj [("data", .jnum 3)]))
        = PostResponse.badRequest
    ∧ handlePost3 "POST" (.payload (.jobj [("data", .jstr "hi")]))
        = PostResponse.ok200 (.jobj [("status", .jstr "success"),
            ("received", .jobj [("data", .jstr "hi")])]) := by
  have h9 := spec_C9 "POST" "s" "hi" false 3 []
    [("other", Json.jstr "x")] "data" (.jobj [("data", .jstr "hi")])
  refine ⟨by decide, by decide, rfl, by decide, ?_, ?_, ?_⟩
  · exact h9.2.2.2.2.2.1 (by decide)
  · exact h9.2.2.2.2.2.2.1 (by decide)
  · exact h9.2.2.2.2.2.2.2.2 rfl (by decide)
